import Mathlib

/-!
# autospeech-multilingual: shared state, recorder and transcription service

A shallow embedding of `pkg/config/state.go`, `pkg/audio/recorder.go`,
`pkg/audio/wav.go` and `pkg/transcription/transcriber.go`.

* Bytes are natural numbers below 256.
* Go slices are modelled with an explicit memory of backing arrays, because
  `AppState.GetAudioBuffer` hands out `bytes.Buffer.Bytes()`, a slice value
  whose meaning depends on the backing array it points into.
* Locks are not modelled: every accessor is one atomic step on the state.
* Operating-system effects (files, processes, the audio driver) are inputs
  (`Env`, `AudioEnv`, a schedule of concurrent actions) and every call made is recorded in a trace of events.
* `log.Printf` / `log.Println` calls are omitted.
-/

set_option linter.unnecessarySeqFocus false

namespace Autospeech

/-! ## Memory, slices and `bytes.Buffer` (Go standard library) -/

/-- Memory: the backing arrays allocated so far, addressed by index. -/
abbrev Mem := List (List Nat)

/-- A Go `[]byte` value: a pointer (backing array and start position inside
it), a length and a capacity.  `arr = none` is the nil slice. -/
structure Slice where
  arr : Option Nat
  start : Nat
  len : Nat
  cap : Nat
deriving DecidableEq, Repr

/-- The nil slice. -/
def Slice.nil : Slice := { arr := none, start := 0, len := 0, cap := 0 }

/-- The bytes a slice value denotes in a given memory. -/
def Slice.read (m : Mem) (s : Slice) : List Nat :=
  match s.arr with
  | none => []
  | some a => ((m.getD a []).drop s.start).take s.len

/-- Overwrite `l` from position `pos` on with `bs` (the array keeps its length). -/
def splice (l : List Nat) (pos : Nat) (bs : List Nat) : List Nat :=
  l.take pos ++ (bs.take (l.length - pos)) ++ l.drop (pos + bs.length)

/-- Go `copy(dst[from:], src)`: writes `min (len dst - from) (len src)` bytes into
the backing array of `dst`. -/
def copyInto (m : Mem) (dst : Slice) (src : List Nat) (frm : Nat) : Mem :=
  match dst.arr with
  | none => m
  | some a =>
    m.set a (splice (m.getD a []) (dst.start + frm) (src.take (dst.len - frm)))

/-- Go `bytes.Buffer` restricted to the fields that `Bytes`, `Write` and `Reset`
use: `buf` holds the contents, `off` is the read offset. -/
structure Buffer where
  buf : Slice
  off : Nat
deriving DecidableEq, Repr

/-- Go `smallBufferSize`. -/
def smallBufferSize : Nat := 64

/-- `Buffer.Bytes`: `b.buf[b.off:]`, a slice of the buffer's own backing array
(the Go documentation: the slice aliases the buffer content at least until the
next buffer modification). -/
def Buffer.Bytes (b : Buffer) : Slice :=
  { arr := b.buf.arr, start := b.buf.start + b.off, len := b.buf.len - b.off,
    cap := b.buf.cap - b.off }

/-- `Buffer.Len`. -/
def Buffer.Len (b : Buffer) : Nat := b.buf.len - b.off

/-- `Buffer.Reset`: `b.buf = b.buf[:0]; b.off = 0`.  The backing array is kept. -/
def Buffer.Reset (b : Buffer) : Buffer :=
  { buf := { b.buf with len := 0 }, off := 0 }

/-- `Buffer.tryGrowByReslice`: when `n` more bytes fit in the capacity, reslice. -/
def Buffer.tryGrowByReslice (b : Buffer) (n : Nat) : Option (Buffer × Nat) :=
  if n ≤ b.buf.cap - b.buf.len then
    some ({ b with buf := { b.buf with len := b.buf.len + n } }, b.buf.len)
  else none

/-- Size classes of the Go allocator (`runtime/sizeclasses.go`), in bytes. -/
def sizeClasses : List Nat :=
  [ 8, 16, 24, 32, 48, 64, 80, 96, 112, 128, 144, 160, 176, 192, 208, 224, 240, 256,
    288, 320, 352, 384, 416, 448, 480, 512, 576, 640, 704, 768, 896, 1024, 1152, 1280,
    1408, 1536, 1792, 2048, 2304, 2688, 3072, 3200, 3456, 4096, 4864, 5120, 5376, 6144,
    6528, 6784, 6912, 8192, 9472, 9728, 10240, 10880, 12288, 13568, 14336, 16384, 18432,
    19072, 20480, 21760, 24576, 27264, 28672, 32768 ]

/-- Go runtime `roundupsize` for pointer-free memory: the smallest size class that
holds `size` bytes, and whole 8192-byte pages above the largest class. -/
def roundupsize (size : Nat) : Nat :=
  match sizeClasses.find? (fun c => decide (size ≤ c)) with
  | some c => c
  | none => (size + 8191) / 8192 * 8192

/-- `growSlice (b.buf[b.off:]) n`: `append([]byte(nil), make([]byte, c)...)` with
`c = max (len + n) (2 * cap)` allocates a fresh zeroed array whose capacity is `c`
rounded up by the allocator; it receives the old contents, and the result has
the old length. -/
def growSlice (m : Mem) (s : Slice) (n : Nat) : Mem × Slice :=
  let c := if s.len + n < 2 * s.cap then 2 * s.cap else s.len + n
  let b2 : Slice := { arr := some m.length, start := 0, len := c, cap := roundupsize c }
  let m1 := m ++ [List.replicate (roundupsize c) 0]
  let m2 := copyInto m1 b2 (s.read m) 0
  (m2, { b2 with len := min c s.len })

/-- `Buffer.grow`: makes room for `n` more bytes and returns the index where they
go.  The `ErrTooLarge` panic (a capacity beyond the largest `int`) is not
modelled: lengths are unbounded naturals. -/
def Buffer.grow (m : Mem) (b : Buffer) (n : Nat) : Mem × Buffer × Nat :=
  let len := b.Len
  let b := if len = 0 ∧ b.off ≠ 0 then b.Reset else b
  match b.tryGrowByReslice n with
  | some (b1, i) => (m, b1, i)
  | none =>
    if b.buf.arr = none ∧ n ≤ smallBufferSize then
      (m ++ [List.replicate smallBufferSize 0],
        { buf := { arr := some m.length, start := 0, len := n, cap := smallBufferSize },
          off := b.off }, 0)
    else
      let c := b.buf.cap
      if n + len ≤ c / 2 then
        let m1 := copyInto m b.buf (b.Bytes.read m) 0
        (m1, { buf := { b.buf with len := len + n }, off := 0 }, len)
      else
        let (m1, s1) := growSlice m b.Bytes (b.off + n)
        (m1, { buf := { s1 with len := len + n }, off := 0 }, len)

/-- `Buffer.Write`: grow if needed, then `copy(b.buf[m:], p)`. -/
def Buffer.Write (m : Mem) (b : Buffer) (p : List Nat) : Mem × Buffer :=
  match b.tryGrowByReslice p.length with
  | some (b1, i) => (copyInto m b1.buf p i, b1)
  | none =>
    let (m1, b1, i) := b.grow m p.length
    (copyInto m1 b1.buf p i, b1)

/-! ## `pkg/config/state.go` -/

/-- Go `time.Duration`: a count of nanoseconds held in an `int64`. -/
def minDuration : Int := -(2 ^ 63)

/-- Largest `time.Duration`. -/
def maxDuration : Int := 2 ^ 63 - 1

/-- Go `time.Millisecond` in nanoseconds. -/
def Millisecond : Int := 1000000

/-- `Time.Sub`: the difference of two instants (integers counting nanoseconds),
saturated to the range of `time.Duration`. -/
def timeSub (t u : Int) : Int :=
  if t - u < minDuration then minDuration
  else if maxDuration < t - u then maxDuration
  else t - u

/-- `time.Since t` evaluated when the clock reads `now`. -/
def timeSince (now t : Int) : Int := timeSub now t

/-- `AppState`.  `mem` is the memory the audio buffer's slices point into; the
mutex is not modelled.  Instants are nanoseconds counted from the zero
`time.Time`. -/
structure AppState where
  mem : Mem
  isRecording : Bool
  transcribedText : String
  audioBuffer : Buffer
  partialTranscription : String
  partialUpdateTime : Int
deriving DecidableEq

/-- `NewAppState`: every field at its zero value. -/
def NewAppState : AppState :=
  { mem := [], isRecording := false, transcribedText := "",
    audioBuffer := { buf := Slice.nil, off := 0 },
    partialTranscription := "", partialUpdateTime := 0 }

/-- `AppState.IsRecording`. -/
def AppState.IsRecording (s : AppState) : Bool := s.isRecording

/-- `AppState.SetRecording`. -/
def AppState.SetRecording (s : AppState) (recording : Bool) : AppState :=
  { s with isRecording := recording }

/-- `AppState.GetTranscribedText`. -/
def AppState.GetTranscribedText (s : AppState) : String := s.transcribedText

/-- `AppState.SetTranscribedText`. -/
def AppState.SetTranscribedText (s : AppState) (text : String) : AppState :=
  { s with transcribedText := text }

/-- `AppState.GetAudioBuffer`: `return s.audioBuffer.Bytes()`. -/
def AppState.GetAudioBuffer (s : AppState) : Slice := s.audioBuffer.Bytes

/-- `AppState.WriteToAudioBuffer`: `s.audioBuffer.Write(data)`. -/
def AppState.WriteToAudioBuffer (s : AppState) (data : List Nat) : AppState :=
  let r := s.audioBuffer.Write s.mem data
  { s with mem := r.1, audioBuffer := r.2 }

/-- `AppState.ResetAudioBuffer`: `s.audioBuffer.Reset()`. -/
def AppState.ResetAudioBuffer (s : AppState) : AppState :=
  { s with audioBuffer := s.audioBuffer.Reset }

/-- `AppState.GetPartialTranscription`. -/
def AppState.GetPartialTranscription (s : AppState) : String := s.partialTranscription

/-- `AppState.SetPartialTranscription`. -/
def AppState.SetPartialTranscription (s : AppState) (text : String) : AppState :=
  { s with partialTranscription := text }

/-- `AppState.UpdatePartialTranscriptionTime`; `now` is the reading of
`time.Now()`. -/
def AppState.UpdatePartialTranscriptionTime (s : AppState) (now : Int) : AppState :=
  { s with partialUpdateTime := now }

/-- `AppState.ShouldUpdatePartialTranscription`; `now` is the clock reading
inside `time.Since`. -/
def AppState.ShouldUpdatePartialTranscription (s : AppState) (now : Int) : Bool :=
  decide (timeSince now s.partialUpdateTime > 200 * Millisecond)

/-- The bytes currently denoted by a slice handed out earlier, read in the
memory of state `s`. -/
def AppState.contents (s : AppState) (b : Slice) : List Nat := b.read s.mem

/-- A call on the audio buffer of the shared state. -/
inductive BufOp where
  | write (data : List Nat)
  | reset
deriving DecidableEq, Repr

/-- Apply one audio-buffer call. -/
def AppState.applyOp (s : AppState) : BufOp → AppState
  | .write d => s.WriteToAudioBuffer d
  | .reset => s.ResetAudioBuffer

/-- Apply a sequence of audio-buffer calls, first call first. -/
def AppState.applyOps (s : AppState) (ops : List BufOp) : AppState :=
  ops.foldl AppState.applyOp s

/-! ## `pkg/config/config.go` -/

/-- `config.SampleRate`. -/
def SampleRate : Nat := 16000

/-- `config.FramesPerBuffer`. -/
def FramesPerBuffer : Nat := 1024

/-- `config.Channels`. -/
def Channels : Nat := 1

/-! ## `pkg/audio/recorder.go` -/

/-- Go conversion `byte(x)` of a signed integer: its low eight bits. -/
def byteOfInt (x : Int) : Nat := (x % 256).toNat

/-- The outcomes of the two PortAudio calls `StartRecording` makes: the error
of `portaudio.OpenDefaultStream` and the error of `inputStream.Start`
(`none` is a nil error). -/
structure AudioEnv where
  openErr : Option String
  startErr : Option String

/-- Calls made on the audio driver. -/
inductive StreamEvent where
  | openDefaultStream (channels : Nat) (sampleRate : Nat) (framesPerBuffer : Nat)
  | streamStart
  | streamStop
  | streamClose
deriving DecidableEq, Repr

/-- `Recorder`.  `callback` tells whether `r.callback` is non-nil; `stopChan`
counts the senders blocked on the unbuffered stop channel; `delivered` lists
the arguments `r.callback` has been invoked with, oldest first. -/
structure Recorder where
  state : AppState
  callback : Bool
  stopChan : Nat
  delivered : List (List Nat)
deriving DecidableEq

/-- `NewRecorder`. -/
def NewRecorder (state : AppState) : Recorder :=
  { state := state, callback := false, stopChan := 0, delivered := [] }

/-- The byte buffer `audioInputCallback` builds from a frame: for each sample,
`byte(sample)` then `byte(sample >> 8)`. -/
def frameBytes (samples : List Int) : List Nat :=
  samples.flatMap (fun sample => [byteOfInt sample, byteOfInt (sample >>> 8)])

/-- `Recorder.audioInputCallback`. -/
def Recorder.audioInputCallback (r : Recorder) (samples : List Int) : Recorder :=
  let buf := frameBytes samples
  let r1 := { r with state := r.state.WriteToAudioBuffer buf }
  if r1.callback then { r1 with delivered := r1.delivered ++ [buf] } else r1

/-- `Recorder.StopRecording`: sends on the stop channel only while recording.
The send stays pending until the recording loop receives it. -/
def Recorder.StopRecording (r : Recorder) : Recorder :=
  if r.state.IsRecording then { r with stopChan := r.stopChan + 1 } else r

/-- What other threads do while the recording loop waits in its `select`. -/
inductive Action where
  | frame (samples : List Int)
  | stopRequest
  | setRecording (recording : Bool)
deriving DecidableEq, Repr

/-- One concurrent action applied to the recorder. -/
def Recorder.act (r : Recorder) : Action → Recorder
  | .frame samples => r.audioInputCallback samples
  | .stopRequest => r.StopRecording
  | .setRecording b => { r with state := r.state.SetRecording b }

/-- The loop `for r.state.IsRecording() { select { ... } }`.  Each element of the
schedule lists what happens during one wait; the `select` then takes the stop
signal when a sender is pending and the 100 ms timeout otherwise.  The result
is `true` when the loop has exited and `false` when the schedule ended with the
loop still waiting. -/
def recordingLoop (r : Recorder) : List (List Action) → Recorder × Bool
  | [] => (r, !r.state.IsRecording)
  | tick :: rest =>
    if r.state.IsRecording then
      let r1 := tick.foldl Recorder.act r
      if 0 < r1.stopChan then
        recordingLoop { r1 with stopChan := r1.stopChan - 1,
                                state := r1.state.SetRecording false } rest
      else recordingLoop r1 rest
    else (r, true)

/-- What a call of `StartRecording` leaves behind: the recorder, the driver
calls made, and the returned error (`ret = none`: not returned yet,
`ret = some none`: returned nil). -/
structure StartResult where
  recorder : Recorder
  events : List StreamEvent
  ret : Option (Option String)

/-- `Recorder.StartRecording`. -/
def Recorder.StartRecording (r : Recorder) (dataCallback : Bool) (env : AudioEnv)
    (sched : List (List Action)) : StartResult :=
  let r := { r with callback := dataCallback }
  let r := { r with state := r.state.ResetAudioBuffer }
  let r := { r with state := r.state.SetRecording true }
  let opened := StreamEvent.openDefaultStream Channels SampleRate FramesPerBuffer
  match env.openErr with
  | some err =>
    { recorder := { r with state := r.state.SetRecording false },
      events := [opened], ret := some (some err) }
  | none =>
    match env.startErr with
    | some err =>
      { recorder := { r with state := r.state.SetRecording false },
        events := [opened, .streamStart, .streamClose], ret := some (some err) }
    | none =>
      let res := recordingLoop r sched
      if res.2 then
        { recorder := res.1,
          events := [opened, .streamStart, .streamStop, .streamClose],
          ret := some none }
      else
        { recorder := res.1, events := [opened, .streamStart], ret := none }

/-! ## Operating-system effects of the transcription service -/

/-- A call made on the operating system. -/
inductive Event where
  | mkdirTemp (pfx : String)
  | removeAll (dir : String)
  | mkdirAll (dir : String)
  | create (file : String)
  | write (file : String) (bytes : List Nat)
  | close (file : String)
  | stat (path : String)
  | lookPath (cmd : String)
  | exec (path : String) (args : List String)
deriving DecidableEq, Repr

/-- The answers of the operating system, as inputs.  An error is its message and
`none` is the nil error.  `stat p` tells whether `os.Stat p` returns a nil
error; `combinedOutput path args` is the result of
`exec.Command(path, args...).CombinedOutput()`: the captured output (taken to be
valid UTF-8) and the error, nil exactly when the process ran and exited with
status 0. -/
structure Env where
  home : String
  joinPath : String → String → String
  dirOf : String → String
  mkdirTemp : String → Except String String
  mkdirAll : String → Option String
  create : String → Option String
  writeFile : String → List Nat → Option String
  stat : String → Bool
  lookPath : String → Option String
  combinedOutput : String → List String → String × Option String

/-- The value a function of the service returns: `(text, error)`. -/
abbrev Result := String × Option String

/-- `audio.CreateTempDir`: `os.MkdirTemp("", prefix)`. -/
def CreateTempDir (env : Env) (pfx : String) : List Event × Except String String :=
  ([.mkdirTemp pfx], env.mkdirTemp pfx)

/-! ## `pkg/audio/wav.go` -/

/-- Go conversion `uint32(x)` of a non-negative integer. -/
def u32 (x : Nat) : Nat := x % 2 ^ 32

/-- Go `byte(x >> k)` for an unsigned `x`. -/
def byteAt (x k : Nat) : Nat := (x >>> k) % 256

/-- The 44-byte header `SaveAsWav` builds for `n` bytes of audio data. -/
def wavHeader (n : Nat) : List Nat :=
  let sampleRateBytes := u32 SampleRate
  let byteRate := u32 (SampleRate * Channels * 16 / 8)
  let blockAlign := Channels * 16 / 8
  let dataSize := u32 n
  let fileSize := u32 (44 + n - 8)
  [ 'R'.toNat, 'I'.toNat, 'F'.toNat, 'F'.toNat,
    byteAt fileSize 0, byteAt fileSize 8, byteAt fileSize 16, byteAt fileSize 24,
    'W'.toNat, 'A'.toNat, 'V'.toNat, 'E'.toNat,
    'f'.toNat, 'm'.toNat, 't'.toNat, ' '.toNat,
    16, 0, 0, 0,
    1, 0,
    byteAt Channels 0, 0,
    byteAt sampleRateBytes 0, byteAt sampleRateBytes 8,
    byteAt sampleRateBytes 16, byteAt sampleRateBytes 24,
    byteAt byteRate 0, byteAt byteRate 8, byteAt byteRate 16, byteAt byteRate 24,
    byteAt blockAlign 0, byteAt blockAlign 8,
    16, 0,
    'd'.toNat, 'a'.toNat, 't'.toNat, 'a'.toNat,
    byteAt dataSize 0, byteAt dataSize 8, byteAt dataSize 16, byteAt dataSize 24 ]

/-- `audio.SaveAsWav`: the calls it makes and the error it returns. -/
def SaveAsWav (env : Env) (audioData : List Nat) (outputFile : String) :
    List Event × Option String :=
  let header := wavHeader audioData.length
  let dir := env.dirOf outputFile
  match env.mkdirAll dir with
  | some err => ([.mkdirAll dir], some err)
  | none =>
    match env.create outputFile with
    | some err => ([.mkdirAll dir, .create outputFile], some err)
    | none =>
      match env.writeFile outputFile header with
      | some err =>
        ([.mkdirAll dir, .create outputFile, .write outputFile header,
          .close outputFile], some err)
      | none =>
        ([.mkdirAll dir, .create outputFile, .write outputFile header,
          .write outputFile audioData, .close outputFile],
          env.writeFile outputFile audioData)

/-! ## `pkg/transcription/transcriber.go` -/

/-- Go `unicode.IsSpace`. -/
def isSpace (c : Char) : Bool :=
  let r := c.toNat
  (9 ≤ r && r ≤ 13) || r = 0x20 || r = 0x85 || r = 0xA0 || r = 0x1680 ||
  (0x2000 ≤ r && r ≤ 0x200A) || r = 0x2028 || r = 0x2029 || r = 0x202F ||
  r = 0x205F || r = 0x3000

/-- Go `strings.TrimSpace`: leading and trailing white space removed. -/
def TrimSpace (s : String) : String :=
  String.mk ((s.data.dropWhile isSpace).reverse.dropWhile isSpace).reverse

/-- The locations `transcribeWithVosk` probes, in order. -/
def possiblePaths (env : Env) : List String :=
  [ "./vosk-transcribe",
    "../vosk-transcribe",
    "/usr/local/bin/vosk-transcribe",
    "/usr/bin/vosk-transcribe",
    env.joinPath env.home "vosk-transcribe" ]

/-- The loop over `possiblePaths`: `os.Stat` each path and stop at the first one
that exists. -/
def statLoop (env : Env) : List String → List Event × Option String
  | [] => ([], none)
  | path :: rest =>
    if env.stat path then ([.stat path], some path)
    else
      let r := statLoop env rest
      (.stat path :: r.1, r.2)

/-- `Transcriber.transcribeWithVosk`. -/
def transcribeWithVosk (env : Env) (wavFile : String) : List Event × Result :=
  let probe := statLoop env (possiblePaths env)
  let resolved : List Event × Option String :=
    match probe.2 with
    | some path => (probe.1, some path)
    | none => (probe.1 ++ [.lookPath "vosk-transcribe"], env.lookPath "vosk-transcribe")
  match resolved.2 with
  | none =>
    (resolved.1, ("", some "vosk-transcribe not found, run setup-vosk-small.sh to install"))
  | some voskCmd =>
    let out := env.combinedOutput voskCmd [wavFile]
    let tr := resolved.1 ++ [.exec voskCmd [wavFile]]
    match out.2 with
    | some err =>
      (tr, ("", some ("vosk transcription failed: " ++ err ++ ", output: " ++ out.1)))
    | none =>
      let transcription := TrimSpace out.1
      if transcription = "" then (tr, ("", some "no transcription output from vosk"))
      else (tr, (transcription, none))

/-- An entry of the table `cmds` of `transcribeWithSystemCommand`. -/
structure CmdInfo where
  name : String
  command : String
  args : List String
deriving DecidableEq, Repr

/-- The table `cmds`. -/
def cmds (wavFile : String) : List CmdInfo :=
  [ { name := "speech-recognition", command := "speech-recognition", args := [wavFile] },
    { name := "speech-to-text", command := "speech-to-text", args := [wavFile] } ]

/-- The body of the loop of `transcribeWithSystemCommand` for one entry: the calls
made, and the output when the loop returns it (found, nil error, `len(output) > 0`). -/
def tryCommand (env : Env) (cmdInfo : CmdInfo) : List Event × Option String :=
  match env.lookPath cmdInfo.command with
  | none => ([.lookPath cmdInfo.command], none)
  | some path =>
    let out := env.combinedOutput path cmdInfo.args
    ([.lookPath cmdInfo.command, .exec path cmdInfo.args],
      if out.2 = none ∧ 0 < out.1.length then some out.1 else none)

/-- The loop of `transcribeWithSystemCommand` and its final error. -/
def commandLoop (env : Env) : List CmdInfo → List Event × Result
  | [] => ([], ("", some "no system speech recognition tools found"))
  | cmdInfo :: rest =>
    let t := tryCommand env cmdInfo
    match t.2 with
    | some output => (t.1, (output, none))
    | none =>
      let r := commandLoop env rest
      (t.1 ++ r.1, r.2)

/-- `Transcriber.transcribeWithSystemCommand`. -/
def transcribeWithSystemCommand (env : Env) (wavFile : String) : List Event × Result :=
  commandLoop env (cmds wavFile)

/-- `Transcriber.TranscribeAudio`.  The deferred `os.RemoveAll(tmpDir)` closes
every path that created the directory. -/
def TranscribeAudio (env : Env) (state : AppState) : List Event × Result :=
  let audioData := state.GetAudioBuffer
  if audioData.len = 0 then ([], ("", some "no audio data captured"))
  else
    let t := CreateTempDir env "speech-reco"
    match t.2 with
    | .error err => (t.1, ("", some err))
    | .ok tmpDir =>
      let wavFile := env.joinPath tmpDir "recording.wav"
      let w := SaveAsWav env (state.contents audioData) wavFile
      match w.2 with
      | some err => (t.1 ++ w.1 ++ [.removeAll tmpDir], ("", some err))
      | none =>
        let v := transcribeWithVosk env wavFile
        if v.2.2 = none ∧ v.2.1 ≠ "" then
          (t.1 ++ w.1 ++ v.1 ++ [.removeAll tmpDir], (v.2.1, none))
        else
          let c := transcribeWithSystemCommand env wavFile
          if c.2.2 = none ∧ c.2.1 ≠ "" then
            (t.1 ++ w.1 ++ v.1 ++ c.1 ++ [.removeAll tmpDir], (c.2.1, none))
          else
            (t.1 ++ w.1 ++ v.1 ++ c.1 ++ [.removeAll tmpDir],
              ("Speech recognition failed. Please install Vosk or other speech recognition software.",
                none))

/-- `Transcriber.QuickTranscribe`. -/
def QuickTranscribe (env : Env) (audioData : List Nat) : List Event × Result :=
  let t := CreateTempDir env "speech-reco-rt"
  match t.2 with
  | .error err => (t.1, ("", some err))
  | .ok tmpDir =>
    let wavFile := env.joinPath tmpDir "partial.wav"
    let w := SaveAsWav env audioData wavFile
    match w.2 with
    | some err => (t.1 ++ w.1 ++ [.removeAll tmpDir], ("", some err))
    | none =>
      let v := transcribeWithVosk env wavFile
      if v.2.2 = none ∧ v.2.1 ≠ "" then
        (t.1 ++ w.1 ++ v.1 ++ [.removeAll tmpDir], (v.2.1, none))
      else
        let c := transcribeWithSystemCommand env wavFile
        if c.2.2 = none ∧ c.2.1 ≠ "" then
          (t.1 ++ w.1 ++ v.1 ++ c.1 ++ [.removeAll tmpDir], (c.2.1, none))
        else
          (t.1 ++ w.1 ++ v.1 ++ c.1 ++ [.removeAll tmpDir],
            ("", some "real-time transcription failed"))

/-- Go `strings.Index` on the remainder `rest` of a string whose first character
has index `i`: the index of the first occurrence of `substr`, `none` for `-1`. -/
def indexFrom (substr : List Char) : List Char → Nat → Option Nat
  | [], i => if substr = [] then some i else none
  | c :: rest, i =>
    if (c :: rest).take substr.length = substr then some i
    else indexFrom substr rest (i + 1)

/-- Go `strings.Index`. -/
def stringsIndex (s substr : String) : Option Nat := indexFrom substr.data s.data 0

/-- A loop `for cont(i) { i++ }`, run for at most `fuel` iterations. -/
def advanceWhile (cont : Nat → Bool) : Nat → Nat → Nat
  | 0, i => i
  | fuel + 1, i => if cont i then advanceWhile cont fuel (i + 1) else i

/-- `ExtractTextFromJSON`.  A string is the list of its characters, `jsonStr[i]` is
`jsonStr.data[i]?`; both loops stop before the end of the string, so its length
is fuel enough. -/
def ExtractTextFromJSON (jsonStr : String) : String :=
  let len := jsonStr.data.length
  match stringsIndex jsonStr "\"text\":" with
  | none => ""
  | some textFieldIdx =>
    let textStart := textFieldIdx + 7
    let textStart :=
      advanceWhile (fun i => decide (i < len) && jsonStr.data[i]? != some '"') len textStart
    if textStart ≥ len then ""
    else
      let textStart := textStart + 1
      let textEnd :=
        advanceWhile
          (fun i => decide (i < len) &&
            !(jsonStr.data[i]? == some '"' && (i == 0 || jsonStr.data[i - 1]? != some '\\')))
          len textStart
      if textEnd ≥ len then ""
      else String.mk ((jsonStr.data.drop textStart).take (textEnd - textStart))

/-! ## Specification-side notions -/

/-- The audio buffer as `GetAudioBuffer` shows it: the bytes of the slice it
returns, read at once. -/
def AppState.audio (s : AppState) : List Nat := s.contents s.GetAudioBuffer

/-- The data of a call: what a write appends, nothing for a reset. -/
def BufOp.data : BufOp → List Nat
  | .write d => d
  | .reset => []

/-- The data of the writes made after the last reset, concatenated in call
order. -/
def writesAfterLastReset (ops : List BufOp) : List Nat :=
  ((ops.reverse.takeWhile (fun op => decide (op ≠ BufOp.reset))).reverse).flatMap BufOp.data

/-- Representation invariant of the audio buffer: nothing has been read from
it, and its slice covers a prefix of an allocated backing array. -/
def AppState.WF (s : AppState) : Prop :=
  s.audioBuffer.off = 0 ∧ s.audioBuffer.buf.start = 0 ∧
  match s.audioBuffer.buf.arr with
  | none => s.audioBuffer.buf.len = 0 ∧ s.audioBuffer.buf.cap = 0
  | some a =>
    a < s.mem.length ∧ (s.mem.getD a []).length = s.audioBuffer.buf.cap ∧
      s.audioBuffer.buf.len ≤ s.audioBuffer.buf.cap

/-- The message `TranscribeAudio` returns when every method fails. -/
def failureMessage : String :=
  "Speech recognition failed. Please install Vosk or other speech recognition software."

/-- The provider chain that `TranscribeAudio` and `QuickTranscribe` have in
common, factored out for the proofs: vosk first, then the system commands, then
the result `final` of the calling function. -/
def tryProviders (env : Env) (wavFile : String) (final : Result) : List Event × Result :=
  let v := transcribeWithVosk env wavFile
  if v.2.2 = none ∧ v.2.1 ≠ "" then (v.1, (v.2.1, none))
  else
    let c := transcribeWithSystemCommand env wavFile
    if c.2.2 = none ∧ c.2.1 ≠ "" then (v.1 ++ c.1, (c.2.1, none))
    else (v.1 ++ c.1, final)

/-- A recognizer provider of the service. -/
inductive Provider where
  | vosk
  | speechRecognition
  | speechToText
deriving DecidableEq, Repr

/-- The fixed priority order of the providers. -/
def providerOrder : List Provider :=
  [Provider.vosk, Provider.speechRecognition, Provider.speechToText]

/-- The name of a provider's executable. -/
def Provider.command : Provider → String
  | .vosk => "vosk-transcribe"
  | .speechRecognition => "speech-recognition"
  | .speechToText => "speech-to-text"

/-- The executable vosk resolves to: the first candidate location that exists,
else the result of the lookup in `PATH`. -/
def voskCommand (env : Env) : Option String :=
  match (possiblePaths env).find? env.stat with
  | some path => some path
  | none => env.lookPath "vosk-transcribe"

/-- The executable a provider resolves to; `none` when the provider is
unavailable. -/
def Provider.resolve (env : Env) : Provider → Option String
  | .vosk => voskCommand env
  | p => env.lookPath p.command

/-- A provider is unavailable or fails on `wavFile`: it does not resolve, or its
run ends with an error (it could not run or exited with a non-zero status). -/
def Provider.unavailableOrFails (env : Env) (wavFile : String) (p : Provider) : Prop :=
  ∀ path, p.resolve env = some path → (env.combinedOutput path [wavFile]).2 ≠ none

/-- The transcript of a provider by the service contract: the output its process
printed, trimmed of surrounding white space, for every provider. -/
def Provider.text (_p : Provider) (output : String) : String := TrimSpace output

/-- Success of a provider on `wavFile` by the service contract: `some text` when it
resolves, its run ends without error and its trimmed output is not empty;
`none` otherwise. -/
def Provider.yield (env : Env) (wavFile : String) (p : Provider) : Option String :=
  match p.resolve env with
  | none => none
  | some path =>
    let out := env.combinedOutput path [wavFile]
    if out.2 = none ∧ p.text out.1 ≠ "" then some (p.text out.1) else none

/-! ## The provider chain as the code runs it -/

/-- What the code hands back from the output of a provider's process:
`transcribeWithVosk` returns `strings.TrimSpace(string(output))`, the loop of
`transcribeWithSystemCommand` returns `string(output)` as printed. -/
def Provider.returned : Provider → String → String
  | .vosk, output => TrimSpace output
  | _, output => output

/-- The result of the code's attempt at a provider on `wavFile`: `some text` when the
provider resolves, its run ends without error and the text the code hands back
is not empty; `none` otherwise. -/
def Provider.attempt (env : Env) (wavFile : String) (p : Provider) : Option String :=
  match p.resolve env with
  | none => none
  | some path =>
    let out := env.combinedOutput path [wavFile]
    if out.2 = none ∧ p.returned out.1 ≠ "" then some (p.returned out.1) else none

/-! ## Sample inputs -/

/-- Directory part of a slash-separated path (sample environments only). -/
def sampleDir (file : String) : String :=
  String.mk ((file.data.reverse.dropWhile (fun c => c != '/')).drop 1).reverse

/-- A sample environment: every file-system call succeeds, no candidate location
of vosk exists, and `PATH` lookups and process runs are as given. -/
def sampleEnv (lookPath : String → Option String)
    (run : String → String × Option String) : Env where
  home := "/home/user"
  joinPath := fun dir file => dir ++ "/" ++ file
  dirOf := sampleDir
  mkdirTemp := fun pfx => Except.ok ("/tmp/" ++ pfx ++ "42")
  mkdirAll := fun _ => none
  create := fun _ => none
  writeFile := fun _ _ => none
  stat := fun _ => false
  lookPath := lookPath
  combinedOutput := fun path _ => run path

/-- Sample: a recorder that is recording and holds three buffered bytes. -/
def recordingWithAudio : Recorder :=
  { state := (NewAppState.WriteToAudioBuffer [1, 2, 3]).SetRecording true,
    callback := false, stopChan := 0, delivered := [] }

/-- Sample: no provider is installed. -/
def envNoProvider : Env := sampleEnv (fun _ => none) (fun _ => ("", some "exit status 127"))

/-- Sample: every provider is found in `PATH` and every run fails with exit
status 1 after printing `boom`. -/
def envAllFail : Env :=
  sampleEnv (fun cmd => some ("/usr/bin/" ++ cmd)) (fun _ => ("boom", some "exit status 1"))

/-- Sample: only the two system commands are installed; `speech-recognition`
prints `first`, `speech-to-text` prints `hi`, and both exit with status 0. -/
def envSystemCommands (first : String) : Env :=
  sampleEnv
    (fun cmd =>
      if cmd = "speech-recognition" then some "/usr/bin/speech-recognition"
      else if cmd = "speech-to-text" then some "/usr/bin/speech-to-text"
      else none)
    (fun path =>
      if path = "/usr/bin/speech-recognition" then (first, none) else ("hi", none))

/-- The bytes of an ASCII text. -/
def asciiBytes (text : String) : List Nat := text.data.map Char.toNat

/-- The little-endian unsigned 16-bit number held at offset `off` of a byte stream. -/
def le16 (stream : List Nat) (off : Nat) : Nat :=
  stream.getD off 0 + 256 * stream.getD (off + 1) 0

/-- The little-endian unsigned 32-bit number held at offset `off` of a byte stream. -/
def le32 (stream : List Nat) (off : Nat) : Nat :=
  stream.getD off 0 + 256 * stream.getD (off + 1) 0 + 65536 * stream.getD (off + 2) 0 +
    16777216 * stream.getD (off + 3) 0

/-- The four bytes found at offset `off` of a byte stream. -/
def tagAt (stream : List Nat) (off : Nat) : List Nat := (stream.drop off).take 4

/-- The bytes one call writes to `file`: the argument of a `write` on that file,
nothing for any other call. -/
def Event.written (file : String) : Event → List Nat
  | .write f bytes => if f = file then bytes else []
  | _ => []

/-- The byte stream a trace of calls writes to `file`, in call order. -/
def writtenTo (file : String) (trace : List Event) : List Nat :=
  trace.flatMap (Event.written file)

/-- The byte stream `SaveAsWav` writes to its output file. -/
def wavStream (env : Env) (audioData : List Nat) (outputFile : String) : List Nat :=
  writtenTo outputFile (SaveAsWav env audioData outputFile).1

/-- Sample: 16000 bytes of 16-bit silence. -/
def silence16000 : List Nat := List.replicate 16000 0

/-- The text `pat` occurs in `s` at index `i`. -/
def occursAt (s pat : List Char) (i : Nat) : Prop := (s.drop i).take pat.length = pat

/-- The field name `ExtractTextFromJSON` looks for. -/
def textField : List Char := "\"text\":".data

/-- Sample: a recorder holding three buffered bytes, with a data callback
registered. -/
def listeningRecorder : Recorder :=
  { state := NewAppState.WriteToAudioBuffer [1, 2, 3], callback := true, stopChan := 0,
    delivered := [] }

/-! ## Lemmas on the audio buffer -/

theorem splice_length (l : List Nat) (pos : Nat) (bs : List Nat) :
    (splice l pos bs).length = l.length := by
  simp only [splice, List.length_append, List.length_take, List.length_drop]
  omega

theorem take_splice (l : List Nat) (pos : Nat) (bs : List Nat)
    (h : pos + bs.length ≤ l.length) :
    (splice l pos bs).take (pos + bs.length) = l.take pos ++ bs := by
  have h1 : (l.take pos).length = pos := by simp; omega
  have h2 : bs.take (l.length - pos) = bs := List.take_of_length_le (by omega)
  simp only [splice, h2, List.append_assoc]
  rw [List.take_append_eq_append_take, List.take_append_eq_append_take]
  simp [h1]

theorem getD_set_self (m : Mem) (a : Nat) (x : List Nat) (h : a < m.length) :
    (m.set a x).getD a [] = x := by
  simp [List.getD_eq_getElem?_getD, h]

theorem getD_append_length (m : Mem) (x : List Nat) :
    (m ++ [x]).getD m.length [] = x := by
  simp [List.getD_eq_getElem?_getD]


theorem le_roundupsize (size : Nat) : size ≤ roundupsize size := by
  unfold roundupsize
  cases h : sizeClasses.find? (fun c => decide (size ≤ c)) with
  | some c => simpa using List.find?_some h
  | none => simp only; omega

theorem write_none (mem : Mem) (d : List Nat) (r : Bool) (t p : String) (u : Int) :
    let s : AppState := ⟨mem, r, t, ⟨⟨none, 0, 0, 0⟩, 0⟩, p, u⟩
    (s.WriteToAudioBuffer d).WF ∧ (s.WriteToAudioBuffer d).audio = d := by
  intro s
  by_cases h0 : d.length = 0
  · have : d = [] := List.length_eq_zero.mp h0
    subst this
    simp [s, AppState.WriteToAudioBuffer, Buffer.Write, Buffer.tryGrowByReslice, AppState.WF,
      AppState.audio, AppState.contents, AppState.GetAudioBuffer, Buffer.Bytes, Slice.read, copyInto]
  · by_cases h1 : d.length ≤ smallBufferSize
    · simp [s, AppState.WriteToAudioBuffer, Buffer.Write, Buffer.tryGrowByReslice, AppState.WF,
        AppState.audio, AppState.contents, AppState.GetAudioBuffer, Buffer.Bytes, Slice.read, copyInto,
        h0, h1, Buffer.grow, Buffer.Len, getD_append_length, splice_length]
      have := take_splice (List.replicate smallBufferSize 0) 0 d (by simpa using h1)
      simpa using this
    · simp [s, AppState.WriteToAudioBuffer, Buffer.Write, Buffer.tryGrowByReslice, AppState.WF,
        AppState.audio, AppState.contents, AppState.GetAudioBuffer, Buffer.Bytes, Slice.read, copyInto,
        h0, h1, Buffer.grow, Buffer.Len, getD_append_length, splice_length, growSlice]
      have hr := le_roundupsize d.length
      have := take_splice (splice (List.replicate (roundupsize d.length) 0) 0 []) 0 d
        (by simpa [splice_length] using hr)
      exact ⟨hr, by simpa using this⟩


theorem write_some (mem : Mem) (d : List Nat) (r : Bool) (t p : String) (u : Int)
    (a len cap : Nat) (ha : a < mem.length) (hc : (mem.getD a []).length = cap)
    (hl : len ≤ cap) :
    let s : AppState := ⟨mem, r, t, ⟨⟨some a, 0, len, cap⟩, 0⟩, p, u⟩
    (s.WriteToAudioBuffer d).WF ∧ (s.WriteToAudioBuffer d).audio = s.audio ++ d := by
  intro s
  by_cases h0 : d.length ≤ cap - len
  · simp [s, AppState.WriteToAudioBuffer, Buffer.Write, Buffer.tryGrowByReslice, AppState.WF,
      AppState.audio, AppState.contents, AppState.GetAudioBuffer, Buffer.Bytes, Slice.read, copyInto,
      h0, getD_set_self, ha, splice_length, hc]
    have hc1 : mem[a].length = cap := by
      simpa [List.getD_eq_getElem?_getD, ha] using hc
    exact ⟨⟨hc1, by omega⟩, take_splice mem[a] len d (by omega)⟩
  · have h2 : ¬ (d.length + len ≤ cap / 2) := by omega
    simp [s, AppState.WriteToAudioBuffer, Buffer.Write, Buffer.tryGrowByReslice, AppState.WF,
      AppState.audio, AppState.contents, AppState.GetAudioBuffer, Buffer.Bytes, Slice.read, copyInto,
      h0, h2, Buffer.grow, Buffer.Len, getD_append_length, splice_length, growSlice]
    have hc1 : (mem[a]?.getD []).length = cap := by
      simpa [List.getD_eq_getElem?_getD] using hc
    have hge : len + d.length ≤
        (if len + d.length < 2 * cap then 2 * cap else len + d.length) := by
      split_ifs <;> omega
    generalize (if len + d.length < 2 * cap then 2 * cap else len + d.length) = c at *
    have hcr := le_roundupsize c
    generalize roundupsize c = k at *
    generalize hold : List.take len (mem[a]?.getD []) = old
    have hlen : old.length = len := by
      rw [← hold, List.length_take, hc1]; omega
    refine ⟨by omega, ?_⟩
    have e1 : List.take c old = old := List.take_of_length_le (by omega)
    rw [e1]
    have e2 : (splice (List.replicate k 0) 0 old).take len = old := by
      have := take_splice (List.replicate k 0) 0 old (by simp; omega)
      simpa [hlen] using this
    have e3 := take_splice (splice (List.replicate k 0) 0 old) len d
      (by rw [splice_length]; simp; omega)
    rw [e3, e2]


theorem WriteToAudioBuffer_spec (s : AppState) (d : List Nat) (h : s.WF) :
    (s.WriteToAudioBuffer d).WF ∧ (s.WriteToAudioBuffer d).audio = s.audio ++ d := by
  obtain ⟨mem, r, t, ⟨⟨arr, start, len, cap⟩, off⟩, p, u⟩ := s
  simp only [AppState.WF] at h
  obtain ⟨h1, h2, h3⟩ := h
  subst h1 h2
  cases arr with
  | none =>
    simp only at h3
    obtain ⟨h4, h5⟩ := h3
    subst h4 h5
    have := write_none mem d r t p u
    simpa [AppState.audio, AppState.contents, AppState.GetAudioBuffer, Buffer.Bytes,
      Slice.read] using this
  | some a =>
    simp only at h3
    exact write_some mem d r t p u a len cap h3.1 h3.2.1 h3.2.2

theorem ResetAudioBuffer_spec (s : AppState) :
    s.ResetAudioBuffer.audio = [] ∧ (s.WF → s.ResetAudioBuffer.WF) := by
  obtain ⟨mem, r, t, ⟨⟨arr, start, len, cap⟩, off⟩, p, u⟩ := s
  cases arr <;>
    simp [AppState.ResetAudioBuffer, AppState.audio, AppState.contents, AppState.GetAudioBuffer,
      Buffer.Reset, Buffer.Bytes, Slice.read, AppState.WF] <;>
    intros <;> simp_all

theorem NewAppState_WF : NewAppState.WF := by
  simp [NewAppState, AppState.WF, Slice.nil]

theorem writesAfterLastReset_snoc_write (ops : List BufOp) (d : List Nat) :
    writesAfterLastReset (ops ++ [BufOp.write d]) = writesAfterLastReset ops ++ d := by
  simp [writesAfterLastReset, List.takeWhile_cons, BufOp.data, List.flatMap_append]

theorem writesAfterLastReset_snoc_reset (ops : List BufOp) :
    writesAfterLastReset (ops ++ [BufOp.reset]) = [] := by
  simp [writesAfterLastReset, List.takeWhile_cons]

theorem applyOps_spec (ops : List BufOp) :
    (NewAppState.applyOps ops).WF ∧
      (NewAppState.applyOps ops).audio = writesAfterLastReset ops := by
  induction ops using List.reverseRecOn with
  | nil =>
    refine ⟨NewAppState_WF, ?_⟩
    decide
  | append_singleton ops op ih =>
    have e : NewAppState.applyOps (ops ++ [op]) = (NewAppState.applyOps ops).applyOp op := by
      simp [AppState.applyOps, List.foldl_append]
    rw [e]
    cases op with
    | write d =>
      have := WriteToAudioBuffer_spec (NewAppState.applyOps ops) d ih.1
      refine ⟨this.1, ?_⟩
      rw [writesAfterLastReset_snoc_write, ← ih.2]
      exact this.2
    | reset =>
      have := ResetAudioBuffer_spec (NewAppState.applyOps ops)
      refine ⟨this.2 ih.1, ?_⟩
      rw [writesAfterLastReset_snoc_reset]
      exact this.1

/-! ## Lemmas on the transcription service -/

theorem statLoop_snd (env : Env) (ps : List String) :
    (statLoop env ps).2 = ps.find? env.stat := by
  induction ps with
  | nil => rfl
  | cons p rest ih =>
    by_cases h : env.stat p = true
    · simp [statLoop, h]
    · simp [statLoop, h, ih]

theorem statLoop_events (env : Env) (ps : List String) :
    ∀ e ∈ (statLoop env ps).1, ∃ p, e = Event.stat p := by
  induction ps with
  | nil => simp [statLoop]
  | cons p rest ih =>
    by_cases h : env.stat p = true
    · simp [statLoop, h]
    · simp only [statLoop, h, Bool.false_eq_true, ↓reduceIte, List.mem_cons]
      rintro e (rfl | he)
      · exact ⟨p, rfl⟩
      · exact ih e he

theorem length_pos_iff_ne_empty (s : String) : 0 < s.length ↔ s ≠ "" := by
  obtain ⟨data⟩ := s
  cases data <;> simp [String.length, String.ext_iff]

theorem transcribeWithVosk_snd (env : Env) (wav : String) :
    (transcribeWithVosk env wav).2 =
      match voskCommand env with
      | none => ("", some "vosk-transcribe not found, run setup-vosk-small.sh to install")
      | some cmd =>
        match (env.combinedOutput cmd [wav]).2 with
        | some err =>
          ("", some ("vosk transcription failed: " ++ err ++ ", output: " ++
            (env.combinedOutput cmd [wav]).1))
        | none =>
          if TrimSpace (env.combinedOutput cmd [wav]).1 = "" then
            ("", some "no transcription output from vosk")
          else (TrimSpace (env.combinedOutput cmd [wav]).1, none) := by
  simp only [transcribeWithVosk, voskCommand, statLoop_snd]
  cases hf : (possiblePaths env).find? env.stat with
  | some path =>
    simp only
    cases (env.combinedOutput path [wav]).2 <;> simp only <;> split_ifs <;> rfl
  | none =>
    simp only
    cases env.lookPath "vosk-transcribe" with
    | none => rfl
    | some cmd =>
      simp only
      cases (env.combinedOutput cmd [wav]).2 <;> simp only <;> split_ifs <;> rfl

theorem transcribeWithVosk_trace (env : Env) (wav : String) :
    ∃ pre, (∀ e ∈ pre, (∃ p, e = Event.stat p) ∨ e = Event.lookPath "vosk-transcribe") ∧
      (transcribeWithVosk env wav).1 =
        match voskCommand env with
        | none => pre
        | some cmd => pre ++ [Event.exec cmd [wav]] := by
  simp only [transcribeWithVosk, voskCommand, statLoop_snd]
  have hs := statLoop_events env (possiblePaths env)
  cases hf : (possiblePaths env).find? env.stat with
  | some path =>
    refine ⟨(statLoop env (possiblePaths env)).1, fun e he => Or.inl (hs e he), ?_⟩
    simp only
    cases (env.combinedOutput path [wav]).2 <;> simp only <;> split_ifs <;> rfl
  | none =>
    refine ⟨(statLoop env (possiblePaths env)).1 ++ [Event.lookPath "vosk-transcribe"], ?_, ?_⟩
    · intro e he
      rcases List.mem_append.mp he with h | h
      · exact Or.inl (hs e h)
      · exact Or.inr (by simpa using h)
    · simp only
      cases env.lookPath "vosk-transcribe" with
      | none => rfl
      | some cmd =>
        simp only
        cases (env.combinedOutput cmd [wav]).2 <;> simp only <;> split_ifs <;> rfl

theorem tryCommand_snd (env : Env) (wav : String) (p : Provider) (hp : p ≠ Provider.vosk) :
    (tryCommand env { name := p.command, command := p.command, args := [wav] }).2 =
      p.attempt env wav := by
  cases p with
  | vosk => exact absurd rfl hp
  | speechRecognition =>
    simp only [tryCommand, Provider.attempt, Provider.resolve, Provider.returned]
    cases env.lookPath Provider.speechRecognition.command with
    | none => rfl
    | some path => simp only [length_pos_iff_ne_empty]
  | speechToText =>
    simp only [tryCommand, Provider.attempt, Provider.resolve, Provider.returned]
    cases env.lookPath Provider.speechToText.command with
    | none => rfl
    | some path => simp only [length_pos_iff_ne_empty]

theorem tryCommand_fst (env : Env) (wav : String) (c : String) :
    (tryCommand env { name := c, command := c, args := [wav] }).1 =
      match env.lookPath c with
      | none => [Event.lookPath c]
      | some path => [Event.lookPath c, Event.exec path [wav]] := by
  simp only [tryCommand]
  cases env.lookPath c <;> rfl


theorem attempt_ne_empty (env : Env) (wav : String) (p : Provider) (t : String)
    (h : p.attempt env wav = some t) : t ≠ "" := by
  unfold Provider.attempt at h
  cases hr : p.resolve env with
  | none => simp [hr] at h
  | some path =>
    simp only [hr] at h
    split_ifs at h with hc
    cases h
    exact hc.2

theorem vosk_attempt_some (env : Env) (wav : String) (t : String)
    (h : Provider.vosk.attempt env wav = some t) :
    (transcribeWithVosk env wav).2 = (t, none) := by
  rw [transcribeWithVosk_snd]
  simp only [Provider.attempt, Provider.resolve, Provider.returned] at h
  cases hv : voskCommand env with
  | none => simp [hv] at h
  | some cmd =>
    simp only [hv] at h
    split_ifs at h with hc
    cases h
    simp [hc.1, hc.2]

theorem vosk_attempt_none (env : Env) (wav : String)
    (h : Provider.vosk.attempt env wav = none) :
    ¬ ((transcribeWithVosk env wav).2.2 = none ∧ (transcribeWithVosk env wav).2.1 ≠ "") := by
  rw [transcribeWithVosk_snd]
  simp only [Provider.attempt, Provider.resolve, Provider.returned] at h
  cases hv : voskCommand env with
  | none => simp
  | some cmd =>
    simp only [hv] at h
    cases hc : (env.combinedOutput cmd [wav]).2 with
    | some err => simp [hc]
    | none =>
      by_cases ht : TrimSpace (env.combinedOutput cmd [wav]).1 = ""
      · simp [hc, ht]
      · simp [hc, ht] at h

theorem commandLoop_cmds (env : Env) (wav : String) :
    transcribeWithSystemCommand env wav =
      match Provider.speechRecognition.attempt env wav with
      | some t => ((tryCommand env ⟨"speech-recognition", "speech-recognition", [wav]⟩).1, (t, none))
      | none =>
        match Provider.speechToText.attempt env wav with
        | some t =>
          ((tryCommand env ⟨"speech-recognition", "speech-recognition", [wav]⟩).1 ++
            (tryCommand env ⟨"speech-to-text", "speech-to-text", [wav]⟩).1, (t, none))
        | none =>
          ((tryCommand env ⟨"speech-recognition", "speech-recognition", [wav]⟩).1 ++
            (tryCommand env ⟨"speech-to-text", "speech-to-text", [wav]⟩).1,
            ("", some "no system speech recognition tools found")) := by
  have h1 := tryCommand_snd env wav Provider.speechRecognition (by decide)
  have h2 := tryCommand_snd env wav Provider.speechToText (by decide)
  simp only [Provider.command] at h1 h2
  simp only [transcribeWithSystemCommand, cmds, commandLoop, h1, h2]
  cases Provider.speechRecognition.attempt env wav with
  | some t => rfl
  | none =>
    cases Provider.speechToText.attempt env wav with
    | some t => rfl
    | none => simp


theorem tryProviders_eq (env : Env) (wav : String) (final : Result) :
    tryProviders env wav final =
      match Provider.vosk.attempt env wav with
      | some t => ((transcribeWithVosk env wav).1, (t, none))
      | none =>
        match Provider.speechRecognition.attempt env wav with
        | some t =>
          ((transcribeWithVosk env wav).1 ++
            (tryCommand env ⟨"speech-recognition", "speech-recognition", [wav]⟩).1, (t, none))
        | none =>
          ((transcribeWithVosk env wav).1 ++
            ((tryCommand env ⟨"speech-recognition", "speech-recognition", [wav]⟩).1 ++
              (tryCommand env ⟨"speech-to-text", "speech-to-text", [wav]⟩).1),
            match Provider.speechToText.attempt env wav with
            | some t => (t, none)
            | none => final) := by
  unfold tryProviders
  cases hy : Provider.vosk.attempt env wav with
  | some t =>
    have hne := attempt_ne_empty env wav _ t hy
    simp [vosk_attempt_some env wav t hy, hne]
  | none =>
    have := vosk_attempt_none env wav hy
    simp only [this, ↓reduceIte, commandLoop_cmds]
    cases h1 : Provider.speechRecognition.attempt env wav with
    | some t =>
      have := attempt_ne_empty env wav _ t h1
      simp [this]
    | none =>
      cases h2 : Provider.speechToText.attempt env wav with
      | some t =>
        have := attempt_ne_empty env wav _ t h2
        simp [this]
      | none => simp


theorem vosk_events_lookPath (env : Env) (wav c : String)
    (h : Event.lookPath c ∈ (transcribeWithVosk env wav).1) : c = "vosk-transcribe" := by
  obtain ⟨pre, hpre, he⟩ := transcribeWithVosk_trace env wav
  rw [he] at h
  have hin : Event.lookPath c ∈ pre := by
    cases hv : voskCommand env with
    | none => simpa [hv] using h
    | some cmd => simpa [hv] using h
  rcases hpre _ hin with ⟨p, hp⟩ | hp
  · cases hp
  · cases hp; rfl

theorem vosk_events_exec (env : Env) (wav path : String) (args : List String)
    (h : Event.exec path args ∈ (transcribeWithVosk env wav).1) :
    voskCommand env = some path ∧ args = [wav] := by
  obtain ⟨pre, hpre, he⟩ := transcribeWithVosk_trace env wav
  rw [he] at h
  have hno : Event.exec path args ∉ pre := by
    intro hin
    rcases hpre _ hin with ⟨p, hp⟩ | hp <;> cases hp
  cases hv : voskCommand env with
  | none => simp [hv] at h; exact absurd h hno
  | some cmd =>
    simp only [hv, List.mem_append, List.mem_singleton] at h
    rcases h with h | h
    · exact absurd h hno
    · cases h; exact ⟨rfl, rfl⟩

theorem vosk_events_last (env : Env) (wav path : String) (h : voskCommand env = some path) :
    ∃ pre, (transcribeWithVosk env wav).1 = pre ++ [Event.exec path [wav]] := by
  obtain ⟨pre, _, he⟩ := transcribeWithVosk_trace env wav
  exact ⟨pre, by rw [he, h]⟩

theorem tryCommand_lookPath (env : Env) (wav c d : String)
    (h : Event.lookPath d ∈ (tryCommand env { name := c, command := c, args := [wav] }).1) :
    d = c := by
  rw [tryCommand_fst] at h
  cases hl : env.lookPath c <;> simp [hl] at h <;> exact h

theorem tryCommand_exec (env : Env) (wav c path : String) (args : List String)
    (h : Event.exec path args ∈ (tryCommand env { name := c, command := c, args := [wav] }).1) :
    env.lookPath c = some path ∧ args = [wav] := by
  rw [tryCommand_fst] at h
  cases hl : env.lookPath c with
  | none => simp [hl] at h
  | some q =>
    simp [hl] at h
    exact ⟨by rw [h.1], h.2⟩

theorem SaveAsWav_events (env : Env) (d : List Nat) (f : String) :
    ∀ e ∈ (SaveAsWav env d f).1,
      (∀ c, e ≠ Event.lookPath c) ∧ (∀ path args, e ≠ Event.exec path args) := by
  intro e he
  unfold SaveAsWav at he
  simp only at he
  split at he
  · simp at he; subst he; simp
  · split at he
    · simp at he; rcases he with rfl | rfl <;> simp
    · split at he
      · simp at he; rcases he with rfl | rfl | rfl | rfl <;> simp
      · simp at he; rcases he with rfl | rfl | rfl | rfl | rfl <;> simp

theorem TranscribeAudio_eq (env : Env) (s : AppState) (tmp : String)
    (hne : s.GetAudioBuffer.len ≠ 0)
    (htmp : env.mkdirTemp "speech-reco" = Except.ok tmp)
    (hwav : (SaveAsWav env s.audio (env.joinPath tmp "recording.wav")).2 = none) :
    TranscribeAudio env s =
      (Event.mkdirTemp "speech-reco" ::
        ((SaveAsWav env s.audio (env.joinPath tmp "recording.wav")).1 ++
          (tryProviders env (env.joinPath tmp "recording.wav") (failureMessage, none)).1 ++
          [Event.removeAll tmp]),
        (tryProviders env (env.joinPath tmp "recording.wav") (failureMessage, none)).2) := by
  unfold AppState.audio at hwav
  simp only [TranscribeAudio, hne, CreateTempDir, htmp, hwav, AppState.audio, tryProviders,
    failureMessage, ↓reduceIte]
  split_ifs <;> simp

theorem QuickTranscribe_eq (env : Env) (audioData : List Nat) (tmp : String)
    (htmp : env.mkdirTemp "speech-reco-rt" = Except.ok tmp)
    (hwav : (SaveAsWav env audioData (env.joinPath tmp "partial.wav")).2 = none) :
    QuickTranscribe env audioData =
      (Event.mkdirTemp "speech-reco-rt" ::
        ((SaveAsWav env audioData (env.joinPath tmp "partial.wav")).1 ++
          (tryProviders env (env.joinPath tmp "partial.wav")
            ("", some "real-time transcription failed")).1 ++
          [Event.removeAll tmp]),
        (tryProviders env (env.joinPath tmp "partial.wav")
          ("", some "real-time transcription failed")).2) := by
  simp only [QuickTranscribe, CreateTempDir, htmp, hwav, tryProviders]
  split_ifs <;> simp

theorem attempt_none_of_fails (env : Env) (wav : String) (p : Provider)
    (h : p.unavailableOrFails env wav) : p.attempt env wav = none := by
  unfold Provider.attempt
  cases hr : p.resolve env with
  | none => rfl
  | some path =>
    have := h path hr
    simp [this]

/-- The provider chain as the code runs it: with the scratch directory and WAV file
created, when `p` is the first provider in order whose attempt hands back a
non-empty text `t`, `TranscribeAudio` returns `t` with a nil error; the run of `p`
is the last call before the scratch directory is removed; every process executed
belongs to `p` or to a provider before it; and no provider after `p` is looked
up. -/
theorem chain_first_attempt_wins (env : Env) (s : AppState) (tmp : String)
    (before after : List Provider) (p : Provider) (t : String)
    (hne : s.GetAudioBuffer.len ≠ 0)
    (htmp : env.mkdirTemp "speech-reco" = Except.ok tmp)
    (hwav : (SaveAsWav env s.audio (env.joinPath tmp "recording.wav")).2 = none)
    (hord : providerOrder = before ++ p :: after)
    (hbefore : ∀ q ∈ before, q.attempt env (env.joinPath tmp "recording.wav") = none)
    (hp : p.attempt env (env.joinPath tmp "recording.wav") = some t) :
    (TranscribeAudio env s).2 = (t, none) ∧
    (∃ path pre, p.resolve env = some path ∧
      (TranscribeAudio env s).1 =
        pre ++ [Event.exec path [env.joinPath tmp "recording.wav"], Event.removeAll tmp]) ∧
    (∀ path args, Event.exec path args ∈ (TranscribeAudio env s).1 →
      ∃ q ∈ before ++ [p], q.resolve env = some path ∧
        args = [env.joinPath tmp "recording.wav"]) ∧
    (∀ q ∈ after, Event.lookPath q.command ∉ (TranscribeAudio env s).1) := by
  have hsave := SaveAsWav_events env s.audio (env.joinPath tmp "recording.wav")
  rw [TranscribeAudio_eq env s tmp hne htmp hwav, tryProviders_eq]
  generalize env.joinPath tmp "recording.wav" = wav at *
  have hres : ∃ path, p.resolve env = some path := by
    unfold Provider.attempt at hp
    cases hr : p.resolve env with
    | none => simp [hr] at hp
    | some path => exact ⟨path, rfl⟩
  obtain ⟨path, hpath⟩ := hres
  rcases before with _ | ⟨b1, _ | ⟨b2, _ | ⟨b3, rest⟩⟩⟩
  · -- vosk wins
    simp only [providerOrder, List.nil_append, List.cons.injEq] at hord
    obtain ⟨rfl, rfl⟩ := hord
    simp only [hp]
    obtain ⟨pre, hpre⟩ := vosk_events_last env wav path hpath
    refine ⟨trivial, ⟨path, Event.mkdirTemp "speech-reco" :: ((SaveAsWav env s.audio wav).1 ++ pre),
      hpath, by simp [hpre]⟩, ?_, ?_⟩
    · intro path1 args hin
      simp only [List.mem_cons, List.mem_append, List.mem_singleton, reduceCtorEq, false_or,
        or_false, or_assoc, List.not_mem_nil] at hin
      rcases hin with hin | hin
      · exact absurd rfl ((hsave _ hin).2 path1 args)
      · exact ⟨Provider.vosk, by simp, vosk_events_exec env wav path1 args hin⟩
    · intro q hq hin
      simp only [List.mem_cons, List.mem_append, List.mem_singleton, reduceCtorEq, false_or,
        or_false, or_assoc, List.not_mem_nil] at hin
      rcases hin with hin | hin
      · exact absurd rfl ((hsave _ hin).1 q.command)
      · have := vosk_events_lookPath env wav _ hin
        simp only [List.mem_cons, List.mem_singleton, List.not_mem_nil, or_false] at hq
        rcases hq with rfl | rfl <;> simp [Provider.command] at this
  · -- speech-recognition wins
    simp only [providerOrder, List.cons_append, List.nil_append, List.cons.injEq] at hord
    obtain ⟨rfl, rfl, rfl⟩ := hord
    have hv := hbefore Provider.vosk (by simp)
    simp only [hv, hp]
    have hl : env.lookPath "speech-recognition" = some path := hpath
    refine ⟨trivial, ⟨path, Event.mkdirTemp "speech-reco" :: ((SaveAsWav env s.audio wav).1 ++
        ((transcribeWithVosk env wav).1 ++ [Event.lookPath "speech-recognition"])),
      hpath, by simp [tryCommand_fst, hl]⟩, ?_, ?_⟩
    · intro path1 args hin
      simp only [List.mem_cons, List.mem_append, List.mem_singleton, reduceCtorEq, false_or,
        or_false, or_assoc, List.not_mem_nil] at hin
      rcases hin with hin | hin | hin
      · exact absurd rfl ((hsave _ hin).2 path1 args)
      · exact ⟨Provider.vosk, by simp, vosk_events_exec env wav path1 args hin⟩
      · exact ⟨Provider.speechRecognition, by simp,
          tryCommand_exec env wav "speech-recognition" path1 args hin⟩
    · intro q hq hin
      simp only [List.mem_cons, List.mem_append, List.mem_singleton, reduceCtorEq, false_or,
        or_false, or_assoc, List.not_mem_nil] at hin
      simp only [List.mem_singleton] at hq
      subst hq
      rcases hin with hin | hin | hin
      · exact absurd rfl ((hsave _ hin).1 _)
      · have := vosk_events_lookPath env wav _ hin
        simp [Provider.command] at this
      · have := tryCommand_lookPath env wav "speech-recognition" _ hin
        simp [Provider.command] at this
  · -- speech-to-text wins
    simp only [providerOrder, List.cons_append, List.nil_append, List.cons.injEq] at hord
    obtain ⟨rfl, rfl, rfl, rfl⟩ := hord
    have hv := hbefore Provider.vosk (by simp)
    have hr := hbefore Provider.speechRecognition (by simp)
    simp only [hv, hr, hp]
    have hl : env.lookPath "speech-to-text" = some path := hpath
    refine ⟨trivial, ⟨path, Event.mkdirTemp "speech-reco" :: ((SaveAsWav env s.audio wav).1 ++
        ((transcribeWithVosk env wav).1 ++
          ((tryCommand env ⟨"speech-recognition", "speech-recognition", [wav]⟩).1 ++
            [Event.lookPath "speech-to-text"]))),
      hpath, by simp [tryCommand_fst env wav "speech-to-text", hl]⟩, ?_, ?_⟩
    · intro path1 args hin
      simp only [List.mem_cons, List.mem_append, List.mem_singleton, reduceCtorEq, false_or,
        or_false, or_assoc, List.not_mem_nil] at hin
      rcases hin with hin | hin | hin | hin
      · exact absurd rfl ((hsave _ hin).2 path1 args)
      · exact ⟨Provider.vosk, by simp, vosk_events_exec env wav path1 args hin⟩
      · exact ⟨Provider.speechRecognition, by simp,
          tryCommand_exec env wav "speech-recognition" path1 args hin⟩
      · exact ⟨Provider.speechToText, by simp,
          tryCommand_exec env wav "speech-to-text" path1 args hin⟩
    · intro q hq
      simp at hq
  · simp [providerOrder] at hord

/-- The code's attempt at a provider agrees with the service contract's notion of
success when the provider is vosk, or when its process prints text without
surrounding white space. -/
theorem attempt_eq_yield (env : Env) (wav : String) (q : Provider)
    (h : q ≠ Provider.vosk → ∀ path, q.resolve env = some path →
      TrimSpace (env.combinedOutput path [wav]).1 = (env.combinedOutput path [wav]).1) :
    q.attempt env wav = q.yield env wav := by
  unfold Provider.attempt Provider.yield
  cases hr : q.resolve env with
  | none => rfl
  | some path =>
    cases q with
    | vosk => rfl
    | speechRecognition =>
      have ht := h (by decide) path hr
      simp only [Provider.returned, Provider.text, ht]
    | speechToText =>
      have ht := h (by decide) path hr
      simp only [Provider.returned, Provider.text, ht]

/-- The priority order under the service contract's notion of success, for runs in
which every system command consulted up to the winner prints text without
surrounding white space: the first provider in order that resolves, runs without
error and has a non-empty trimmed output `t` makes `TranscribeAudio` return `t`;
its run is the last call before cleanup, every process executed belongs to it or
to an earlier provider, and no later provider is looked up. -/
theorem first_provider_wins_of_trimmed_output (env : Env) (s : AppState) (tmp : String)
    (before after : List Provider) (p : Provider) (t : String)
    (hne : s.GetAudioBuffer.len ≠ 0)
    (htmp : env.mkdirTemp "speech-reco" = Except.ok tmp)
    (hwav : (SaveAsWav env s.audio (env.joinPath tmp "recording.wav")).2 = none)
    (hord : providerOrder = before ++ p :: after)
    (htrim : ∀ q ∈ before ++ [p], q ≠ Provider.vosk → ∀ path, q.resolve env = some path →
      TrimSpace (env.combinedOutput path [env.joinPath tmp "recording.wav"]).1 =
        (env.combinedOutput path [env.joinPath tmp "recording.wav"]).1)
    (hbefore : ∀ q ∈ before, q.yield env (env.joinPath tmp "recording.wav") = none)
    (hp : p.yield env (env.joinPath tmp "recording.wav") = some t) :
    (TranscribeAudio env s).2 = (t, none) ∧
    (∃ path pre, p.resolve env = some path ∧
      (TranscribeAudio env s).1 =
        pre ++ [Event.exec path [env.joinPath tmp "recording.wav"], Event.removeAll tmp]) ∧
    (∀ path args, Event.exec path args ∈ (TranscribeAudio env s).1 →
      ∃ q ∈ before ++ [p], q.resolve env = some path ∧
        args = [env.joinPath tmp "recording.wav"]) ∧
    (∀ q ∈ after, Event.lookPath q.command ∉ (TranscribeAudio env s).1) := by
  apply chain_first_attempt_wins env s tmp before after p t hne htmp hwav hord
  · intro q hq
    rw [attempt_eq_yield env _ q (htrim q (List.mem_append_left _ hq))]
    exact hbefore q hq
  · rw [attempt_eq_yield env _ p (htrim p (List.mem_append_right _ (List.mem_singleton.mpr rfl)))]
    exact hp

/-! ## Lemmas on the WAV writer -/

theorem wavStream_ok (env : Env) (audioData : List Nat) (outputFile : String)
    (hok : (SaveAsWav env audioData outputFile).2 = none) :
    wavStream env audioData outputFile = wavHeader audioData.length ++ audioData := by
  unfold wavStream SaveAsWav at *
  simp only at hok ⊢
  cases h1 : env.mkdirAll (env.dirOf outputFile) with
  | some e => simp [h1] at hok
  | none =>
    cases h2 : env.create outputFile with
    | some e => simp [h1, h2] at hok
    | none =>
      cases h3 : env.writeFile outputFile (wavHeader audioData.length) with
      | some e => simp [h1, h2, h3] at hok
      | none => simp [writtenTo, Event.written]

theorem wavHeader_fields (n : Nat) (hn : n + 36 < 2 ^ 32) (d : List Nat) :
    (wavHeader n).length = 44 ∧
    tagAt (wavHeader n ++ d) 0 = asciiBytes "RIFF" ∧
    le32 (wavHeader n ++ d) 4 = n + 36 ∧
    tagAt (wavHeader n ++ d) 8 = asciiBytes "WAVE" ∧
    tagAt (wavHeader n ++ d) 12 = asciiBytes "fmt " ∧
    le32 (wavHeader n ++ d) 16 = 16 ∧
    le16 (wavHeader n ++ d) 20 = 1 ∧
    le16 (wavHeader n ++ d) 22 = 1 ∧
    le32 (wavHeader n ++ d) 24 = 16000 ∧
    le32 (wavHeader n ++ d) 28 = 32000 ∧
    le16 (wavHeader n ++ d) 32 = 2 ∧
    le16 (wavHeader n ++ d) 34 = 16 ∧
    tagAt (wavHeader n ++ d) 36 = asciiBytes "data" ∧
    le32 (wavHeader n ++ d) 40 = n := by
  simp only [wavHeader, le32, le16, tagAt, asciiBytes, u32, byteAt, SampleRate, Channels,
    Nat.shiftRight_eq_div_pow]
  norm_num at hn ⊢
  constructor <;> omega

theorem wavHeader_bytes (n : Nat) : ∀ b ∈ wavHeader n, b < 256 := by
  simp only [wavHeader, byteAt, List.forall_mem_cons, List.not_mem_nil, false_imp_iff,
    implies_true, and_true]
  constructorm* _ ∧ _
  all_goals first | decide | exact Nat.mod_lt _ (Nat.succ_pos 255)

/-! ## Lemmas on `ExtractTextFromJSON` -/

theorem indexFrom_first (pat : List Char) (l : List Char) (k i : Nat)
    (hocc : occursAt l pat i) (hmin : ∀ j, j < i → ¬ occursAt l pat j) :
    indexFrom pat l k = some (k + i) := by
  induction l generalizing k i with
  | nil =>
    have hp : pat = [] := by
      simp only [occursAt, List.drop_nil, List.take_nil] at hocc
      exact hocc.symm
    have hi : i = 0 := by
      by_contra h
      exact hmin 0 (Nat.pos_of_ne_zero h) (by simp [occursAt, hp])
    simp [indexFrom, hp, hi]
  | cons c rest ih =>
    by_cases h0 : (c :: rest).take pat.length = pat
    · have hi : i = 0 := by
        by_contra h
        exact hmin 0 (Nat.pos_of_ne_zero h) (by simpa [occursAt] using h0)
      simp [indexFrom, h0, hi]
    · cases i with
      | zero => exact absurd (by simpa [occursAt] using hocc) h0
      | succ i1 =>
        have h1 : occursAt rest pat i1 := by simpa [occursAt] using hocc
        have h2 : ∀ j, j < i1 → ¬ occursAt rest pat j := by
          intro j hj hc
          exact hmin (j + 1) (by omega) (by simpa [occursAt] using hc)
        simp only [indexFrom, h0, ↓reduceIte]
        rw [ih (k + 1) i1 h1 h2]
        congr 1
        omega

theorem indexFrom_none (pat : List Char) (l : List Char) (k : Nat)
    (h : ∀ i, ¬ occursAt l pat i) : indexFrom pat l k = none := by
  induction l generalizing k with
  | nil =>
    have hp : pat ≠ [] := by
      intro hp
      exact h 0 (by simp [occursAt, hp])
    simp [indexFrom, hp]
  | cons c rest ih =>
    have h0 : ¬ (c :: rest).take pat.length = pat := by
      intro hc
      exact h 0 (by simpa [occursAt] using hc)
    simp only [indexFrom, h0, ↓reduceIte]
    exact ih (k + 1) (fun i hc => h (i + 1) (by simpa [occursAt] using hc))

theorem advanceWhile_eq (cont : Nat → Bool) (fuel i j : Nat) (hij : i ≤ j)
    (hfuel : j - i ≤ fuel) (hcont : ∀ k, i ≤ k → k < j → cont k = true)
    (hstop : cont j = false) : advanceWhile cont fuel i = j := by
  induction fuel generalizing i with
  | zero =>
    have : i = j := by omega
    simp [advanceWhile, this]
  | succ fuel ih =>
    by_cases h : i = j
    · subst h
      simp [advanceWhile, hstop]
    · have hc := hcont i (Nat.le_refl i) (by omega)
      simp only [advanceWhile, hc, ↓reduceIte]
      exact ih (i + 1) (by omega) (by omega) (fun k hk1 hk2 => hcont k (by omega) hk2)

theorem occursAt_bound (s pat : List Char) (i : Nat) (h : occursAt s pat i) :
    i + pat.length ≤ s.length ∨ pat = [] := by
  unfold occursAt at h
  have := congrArg List.length h
  simp only [List.length_take, List.length_drop] at this
  by_cases hp : pat = []
  · exact Or.inr hp
  · left
    have : pat.length ≠ 0 := fun h0 => hp (List.length_eq_zero.mp h0)
    omega


theorem extract_no_field (s : String) (h : ∀ i, ¬ occursAt s.data textField i) :
    ExtractTextFromJSON s = "" := by
  have := indexFrom_none textField s.data 0 h
  simp only [textField] at this
  simp [ExtractTextFromJSON, stringsIndex, this]

theorem extract_no_open (s : String) (i : Nat) (hocc : occursAt s.data textField i)
    (hmin : ∀ j, j < i → ¬ occursAt s.data textField j)
    (hq : ∀ j, i + 7 ≤ j → s.data[j]? ≠ some '"') :
    ExtractTextFromJSON s = "" := by
  obtain ⟨cs⟩ := s
  dsimp only at hocc hmin hq
  have hidx := indexFrom_first textField cs 0 i hocc hmin
  have hb : i + 7 ≤ cs.length := by
    rcases occursAt_bound _ _ _ hocc with h | h
    · simpa [textField] using h
    · simp [textField] at h
  simp only [textField, Nat.zero_add] at hidx
  have h1 : advanceWhile (fun k => decide (k < cs.length) && cs[k]? != some '"')
      cs.length (i + 7) = cs.length := by
    apply advanceWhile_eq _ _ _ _ hb (by omega)
    · intro k hk1 hk2
      have := hq k hk1
      simp only [Bool.and_eq_true, decide_eq_true_eq, bne_iff_ne, ne_eq]
      exact ⟨hk2, this⟩
    · simp
  simp only [ExtractTextFromJSON, stringsIndex, hidx, h1]
  simp


theorem getElem?_some_lt (cs : List Char) (k : Nat) (c : Char) (h : cs[k]? = some c) :
    k < cs.length := by
  by_contra hk
  rw [List.getElem?_eq_none (by omega)] at h
  cases h

theorem open_loop_eq (cs : List Char) (i q : Nat) (hiq : i + 7 ≤ q)
    (hq : cs[q]? = some '"') (hfirst : ∀ j, i + 7 ≤ j → j < q → cs[j]? ≠ some '"') :
    advanceWhile (fun k => decide (k < cs.length) && cs[k]? != some '"')
      cs.length (i + 7) = q := by
  have hql := getElem?_some_lt cs q _ hq
  apply advanceWhile_eq _ _ _ _ hiq (by omega)
  · intro k hk1 hk2
    simp only [Bool.and_eq_true, decide_eq_true_eq, bne_iff_ne, ne_eq]
    exact ⟨by omega, hfirst k hk1 hk2⟩
  · simp [hq]

theorem extract_no_close (s : String) (i q : Nat) (hocc : occursAt s.data textField i)
    (hmin : ∀ j, j < i → ¬ occursAt s.data textField j)
    (hiq : i + 7 ≤ q) (hq : s.data[q]? = some '"')
    (hfirst : ∀ j, i + 7 ≤ j → j < q → s.data[j]? ≠ some '"')
    (hno : ∀ e, q < e → s.data[e]? = some '"' → s.data[e - 1]? = some '\\') :
    ExtractTextFromJSON s = "" := by
  obtain ⟨cs⟩ := s
  dsimp only at hocc hmin hq hfirst hno
  have hidx := indexFrom_first textField cs 0 i hocc hmin
  simp only [textField, Nat.zero_add] at hidx
  have hql := getElem?_some_lt cs q _ hq
  have h1 := open_loop_eq cs i q hiq hq hfirst
  have h2 : advanceWhile (fun k => decide (k < cs.length) &&
      !(cs[k]? == some '"' && (k == 0 || cs[k - 1]? != some '\\')))
      cs.length (q + 1) = cs.length := by
    apply advanceWhile_eq _ _ _ _ (by omega) (by omega)
    · intro k hk1 hk2
      simp only [Bool.and_eq_true, decide_eq_true_eq, Bool.not_eq_true', Bool.and_eq_false_imp,
        beq_iff_eq, Bool.or_eq_false_iff, bne_eq_false_iff_eq]
      refine ⟨hk2, fun hk => ⟨?_, hno k (by omega) hk⟩⟩
      simp only [beq_eq_false_iff_ne, ne_eq]
      omega
    · simp
  simp only [ExtractTextFromJSON, stringsIndex, hidx, h1, h2]
  simp [hql]

theorem extract_found (s : String) (i q e : Nat) (hocc : occursAt s.data textField i)
    (hmin : ∀ j, j < i → ¬ occursAt s.data textField j)
    (hiq : i + 7 ≤ q) (hq : s.data[q]? = some '"')
    (hfirst : ∀ j, i + 7 ≤ j → j < q → s.data[j]? ≠ some '"')
    (hqe : q < e) (he : s.data[e]? = some '"') (hesc : s.data[e - 1]? ≠ some '\\')
    (hefirst : ∀ j, q < j → j < e → s.data[j]? = some '"' → s.data[j - 1]? = some '\\') :
    ExtractTextFromJSON s = String.mk ((s.data.drop (q + 1)).take (e - (q + 1))) := by
  obtain ⟨cs⟩ := s
  dsimp only at hocc hmin hq hfirst he hesc hefirst ⊢
  have hidx := indexFrom_first textField cs 0 i hocc hmin
  simp only [textField, Nat.zero_add] at hidx
  have hql := getElem?_some_lt cs q _ hq
  have hel := getElem?_some_lt cs e _ he
  have h1 := open_loop_eq cs i q hiq hq hfirst
  have h2 : advanceWhile (fun k => decide (k < cs.length) &&
      !(cs[k]? == some '"' && (k == 0 || cs[k - 1]? != some '\\')))
      cs.length (q + 1) = e := by
    apply advanceWhile_eq _ _ _ _ (by omega) (by omega)
    · intro k hk1 hk2
      simp only [Bool.and_eq_true, decide_eq_true_eq, Bool.not_eq_true', Bool.and_eq_false_imp,
        beq_iff_eq, Bool.or_eq_false_iff, bne_eq_false_iff_eq]
      refine ⟨by omega, fun hk => ⟨?_, hefirst k (by omega) hk2 hk⟩⟩
      simp only [beq_eq_false_iff_ne, ne_eq]
      omega
    · simp only [Bool.and_eq_false_imp, decide_eq_true_eq, Bool.not_eq_false', Bool.and_eq_true,
        beq_iff_eq, Bool.or_eq_true, bne_iff_ne, ne_eq]
      intro _
      exact ⟨he, Or.inr hesc⟩
  simp only [ExtractTextFromJSON, stringsIndex, hidx, h1, h2]
  rw [if_neg (by omega), if_neg (by omega)]

/-! ## Lemmas on the frame encoding -/

theorem frameBytes_cons (x : Int) (xs : List Int) :
    frameBytes (x :: xs) = byteOfInt x :: byteOfInt (x >>> 8) :: frameBytes xs := by
  simp [frameBytes]

theorem frameBytes_length (samples : List Int) :
    (frameBytes samples).length = 2 * samples.length := by
  induction samples with
  | nil => rfl
  | cons x xs ih => rw [frameBytes_cons]; simp [ih]; omega

theorem frameBytes_getD (samples : List Int) (i : Nat) (hi : i < samples.length) :
    (frameBytes samples).getD (2 * i) 0 = byteOfInt (samples.getD i 0) ∧
    (frameBytes samples).getD (2 * i + 1) 0 = byteOfInt (samples.getD i 0 >>> 8) := by
  induction samples generalizing i with
  | nil => simp at hi
  | cons x xs ih =>
    rw [frameBytes_cons]
    cases i with
    | zero => simp
    | succ j =>
      have hj : j < xs.length := by simpa using hi
      have e1 : 2 * (j + 1) = (2 * j + 1) + 1 := by omega
      rw [e1]
      simp only [List.getD_cons_succ]
      exact ih j hj

theorem byteOfInt_lt (x : Int) : byteOfInt x < 256 := by
  unfold byteOfInt
  omega

theorem shiftRight_eight (x : Int) : x >>> (8 : Int) = x / 256 := by
  have h8 : (8 : Int) = ((8 : Nat) : Int) := rfl
  rw [h8]
  cases x with
  | ofNat m =>
    rw [Int.ofNat_eq_coe, Int.shiftRight_coe_nat, Nat.shiftRight_eq_div_pow]
    norm_num
  | negSucc m =>
    rw [Int.shiftRight_negSucc, Nat.shiftRight_eq_div_pow]
    simp only [Int.negSucc_eq]
    norm_num
    omega

theorem byteOfInt_pair (x : Int) :
    (byteOfInt x : Int) + 256 * (byteOfInt (x >>> 8) : Int) = x % 65536 := by
  unfold byteOfInt
  rw [shiftRight_eight]
  have h1 : (0 : Int) ≤ x % 256 := Int.emod_nonneg _ (by decide)
  have h2 : (0 : Int) ≤ (x / 256) % 256 := Int.emod_nonneg _ (by decide)
  rw [Int.toNat_of_nonneg h1, Int.toNat_of_nonneg h2]
  omega

/-! ## Theorems -/

/-- C1: for every prior recorder state, when opening the audio stream fails, or
opening succeeds and starting fails, `StartRecording` returns that error and
leaves `IsRecording() = false` and an empty audio buffer. -/
theorem StartRecording_failure_rollback (r : Recorder) (dataCallback : Bool)
    (env : AudioEnv) (sched : List (List Action)) (err : String)
    (h : env.openErr = some err ∨ (env.openErr = none ∧ env.startErr = some err)) :
    (r.StartRecording dataCallback env sched).ret = some (some err) ∧
    (r.StartRecording dataCallback env sched).recorder.state.IsRecording = false ∧
    (r.StartRecording dataCallback env sched).recorder.state.GetAudioBuffer.len = 0 ∧
    (r.StartRecording dataCallback env sched).recorder.state.audio = [] := by
  rcases h with h | ⟨h1, h2⟩
  · simp [Recorder.StartRecording, h, AppState.IsRecording, AppState.SetRecording,
      AppState.ResetAudioBuffer, AppState.GetAudioBuffer, AppState.audio,
      AppState.contents, Buffer.Reset, Buffer.Bytes, Slice.read]
    cases r.state.audioBuffer.buf.arr <;> simp
  · simp [Recorder.StartRecording, h1, h2, AppState.IsRecording, AppState.SetRecording,
      AppState.ResetAudioBuffer, AppState.GetAudioBuffer, AppState.audio,
      AppState.contents, Buffer.Reset, Buffer.Bytes, Slice.read]
    cases r.state.audioBuffer.buf.arr <;> simp

/-- Witness for C1: a recorder that is recording with three buffered bytes, and a
driver whose stream opens but does not start. -/
theorem StartRecording_failure_rollback_witness :
    (recordingWithAudio.StartRecording true ⟨none, some "device busy"⟩ []).ret =
      some (some "device busy") ∧
    (recordingWithAudio.StartRecording true ⟨none, some "device busy"⟩ []).recorder.state.IsRecording
      = false ∧
    (recordingWithAudio.StartRecording true ⟨none, some "device busy"⟩
      []).recorder.state.GetAudioBuffer.len = 0 ∧
    (recordingWithAudio.StartRecording true ⟨none, some "device busy"⟩ []).recorder.state.audio
      = [] :=
  StartRecording_failure_rollback recordingWithAudio true ⟨none, some "device busy"⟩ []
    "device busy" (Or.inr ⟨rfl, rfl⟩)

/-- C2 (the code deviates): the slice returned by `GetAudioBuffer` is a live alias
of the buffer's backing array.  After writing `[1, 2, 3]`, taking the slice,
resetting and writing `[9]`, the bytes seen through the slice taken earlier are
`[9, 2, 3]`. -/
theorem GetAudioBuffer_is_alias :
    (NewAppState.WriteToAudioBuffer [1, 2, 3]).contents
        (NewAppState.WriteToAudioBuffer [1, 2, 3]).GetAudioBuffer = [1, 2, 3] ∧
    (((NewAppState.WriteToAudioBuffer [1, 2, 3]).ResetAudioBuffer).WriteToAudioBuffer [9]).contents
        (NewAppState.WriteToAudioBuffer [1, 2, 3]).GetAudioBuffer = [9, 2, 3] := by
  decide

/-- C3: after any finite sequence of `WriteToAudioBuffer` and `ResetAudioBuffer`
calls on a fresh state, `GetAudioBuffer` shows exactly the concatenation, in call
order, of the data written after the last reset; and `ResetAudioBuffer` followed
at once by `GetAudioBuffer` shows the empty sequence on every state. -/
theorem audio_buffer_accumulates (ops : List BufOp) (s : AppState) :
    (NewAppState.applyOps ops).audio = writesAfterLastReset ops ∧
    s.ResetAudioBuffer.audio = [] ∧ s.ResetAudioBuffer.GetAudioBuffer.len = 0 :=
  ⟨(applyOps_spec ops).2, (ResetAudioBuffer_spec s).1, by
    simp [AppState.ResetAudioBuffer, AppState.GetAudioBuffer, Buffer.Reset, Buffer.Bytes]⟩

/-- C4: `ShouldUpdatePartialTranscription` is true exactly when the time elapsed
since the stamp written by `UpdatePartialTranscriptionTime` strictly exceeds
200 ms (200 000 000 ns). -/
theorem ShouldUpdate_iff_elapsed_gt_200ms (s : AppState) (stamp now : Int) :
    (s.UpdatePartialTranscriptionTime stamp).ShouldUpdatePartialTranscription now = true
      ↔ 200000000 < now - stamp := by
  simp only [AppState.ShouldUpdatePartialTranscription, AppState.UpdatePartialTranscriptionTime,
    timeSince, timeSub, minDuration, maxDuration, Millisecond, decide_eq_true_eq]
  split_ifs <;> constructor <;> intro h <;> omega

/-- C5, refuted as stated: exactly 200 ms after the stamp the gate is still
closed. -/
theorem ShouldUpdate_false_at_exactly_200ms :
    (200000000 : Int) - 0 ≥ 200 * Millisecond ∧
    (NewAppState.UpdatePartialTranscriptionTime 0).ShouldUpdatePartialTranscription
      200000000 = false := by
  decide

/-- C5, amended: the gate is closed at the instant of the stamp and exactly 200 ms
after it, and open whenever more than 200 ms have elapsed since the stamp. -/
theorem ShouldUpdate_after_stamp (s : AppState) (stamp now : Int) :
    (s.UpdatePartialTranscriptionTime stamp).ShouldUpdatePartialTranscription stamp = false ∧
    (s.UpdatePartialTranscriptionTime stamp).ShouldUpdatePartialTranscription
      (stamp + 200 * Millisecond) = false ∧
    (200 * Millisecond < now - stamp →
      (s.UpdatePartialTranscriptionTime stamp).ShouldUpdatePartialTranscription now = true) := by
  simp only [AppState.ShouldUpdatePartialTranscription, AppState.UpdatePartialTranscriptionTime,
    timeSince, timeSub, minDuration, maxDuration, Millisecond, decide_eq_true_eq,
    decide_eq_false_iff_not]
  refine ⟨?_, ?_, ?_⟩
  · split_ifs <;> omega
  · split_ifs <;> omega
  · intro h
    split_ifs <;> omega

/-- Witness for C5 amended: 200 ms and one nanosecond after a stamp at 5 s. -/
theorem ShouldUpdate_after_stamp_witness :
    200 * Millisecond < (5200000001 : Int) - 5000000000 ∧
    (NewAppState.UpdatePartialTranscriptionTime 5000000000).ShouldUpdatePartialTranscription
      5200000001 = true :=
  ⟨by decide,
   (ShouldUpdate_after_stamp NewAppState 5000000000 5200000001).2.2 (by decide)⟩

/-- C6: on a state whose audio buffer is empty, `TranscribeAudio` returns the
empty text with the error `no audio data captured`, and makes no call at all:
no scratch directory, no WAV file, no provider. -/
theorem TranscribeAudio_empty_buffer (env : Env) (s : AppState)
    (h : s.GetAudioBuffer.len = 0) :
    TranscribeAudio env s = ([], ("", some "no audio data captured")) := by
  simp [TranscribeAudio, h]

/-- Witness for C6: the fresh state, whose buffer is empty. -/
theorem TranscribeAudio_empty_buffer_witness :
    NewAppState.GetAudioBuffer.len = 0 ∧
    TranscribeAudio envNoProvider NewAppState = ([], ("", some "no audio data captured")) :=
  ⟨rfl, TranscribeAudio_empty_buffer envNoProvider NewAppState rfl⟩

/-- C7: for a non-empty audio input whose scratch directory and WAV file are
created, when each of the three providers is unavailable or fails,
`TranscribeAudio` returns the fixed placeholder with a nil error, and
`QuickTranscribe` on the same bytes returns the empty string with an error. -/
theorem providers_exhausted (env : Env) (s : AppState) (tmp tmpRt : String)
    (hne : s.GetAudioBuffer.len ≠ 0)
    (htmp : env.mkdirTemp "speech-reco" = Except.ok tmp)
    (hwav : (SaveAsWav env s.audio (env.joinPath tmp "recording.wav")).2 = none)
    (htmpRt : env.mkdirTemp "speech-reco-rt" = Except.ok tmpRt)
    (hwavRt : (SaveAsWav env s.audio (env.joinPath tmpRt "partial.wav")).2 = none)
    (hfail : ∀ p ∈ providerOrder, p.unavailableOrFails env (env.joinPath tmp "recording.wav"))
    (hfailRt : ∀ p ∈ providerOrder, p.unavailableOrFails env (env.joinPath tmpRt "partial.wav")) :
    (TranscribeAudio env s).2 =
      ("Speech recognition failed. Please install Vosk or other speech recognition software.",
        none) ∧
    (QuickTranscribe env s.audio).2 = ("", some "real-time transcription failed") := by
  have y := fun p hp => attempt_none_of_fails env _ p (hfail p hp)
  have yRt := fun p hp => attempt_none_of_fails env _ p (hfailRt p hp)
  rw [TranscribeAudio_eq env s tmp hne htmp hwav, QuickTranscribe_eq env s.audio tmpRt htmpRt hwavRt,
    tryProviders_eq, tryProviders_eq]
  simp only [y Provider.vosk (by decide), y Provider.speechRecognition (by decide),
    y Provider.speechToText (by decide), yRt Provider.vosk (by decide),
    yRt Provider.speechRecognition (by decide), yRt Provider.speechToText (by decide)]
  exact ⟨rfl, trivial⟩

/-- Witness for C7: two bytes of audio; every provider is installed and every run
exits with status 1. -/
theorem providers_exhausted_witness :
    (TranscribeAudio envAllFail (NewAppState.WriteToAudioBuffer [1, 2])).2 =
      ("Speech recognition failed. Please install Vosk or other speech recognition software.",
        none) ∧
    (QuickTranscribe envAllFail (NewAppState.WriteToAudioBuffer [1, 2]).audio).2 =
      ("", some "real-time transcription failed") :=
  providers_exhausted envAllFail (NewAppState.WriteToAudioBuffer [1, 2])
    "/tmp/speech-reco42" "/tmp/speech-reco-rt42" (by decide) rfl rfl rfl rfl
    (fun _ _ _ _ => by simp [envAllFail, sampleEnv])
    (fun _ _ _ _ => by simp [envAllFail, sampleEnv])

/-- C8 (the code deviates): with vosk absent, `speech-recognition` exiting with
status 0 after printing only a space and a line feed, and `speech-to-text`
exiting with status 0 after printing `hi`, the first provider in order that runs
successfully and returns non-empty text is `speech-to-text`, with `hi`.
`TranscribeAudio` returns the white space printed by `speech-recognition`
instead, and `speech-to-text` is never looked up. -/
theorem TranscribeAudio_blank_output_wins :
    providerOrder.map
        (Provider.yield (envSystemCommands " \n") "/tmp/speech-reco42/recording.wav") =
      [none, none, some "hi"] ∧
    (TranscribeAudio (envSystemCommands " \n") (NewAppState.WriteToAudioBuffer [1, 2])).2 =
      (" \n", none) ∧
    Event.lookPath "speech-to-text" ∉
      (TranscribeAudio (envSystemCommands " \n") (NewAppState.WriteToAudioBuffer [1, 2])).1 := by
  decide

/-- C9 (the code deviates): the output of a fallback system command is returned
as printed, not trimmed.  With vosk absent and `speech-recognition` printing
`hello` and a line feed, `TranscribeAudio` and `QuickTranscribe` return the text
with its line feed; when it prints only white space, that white space is
returned as the transcript and `speech-to-text` is not tried. -/
theorem system_command_output_not_trimmed :
    (TranscribeAudio (envSystemCommands "hello\n") (NewAppState.WriteToAudioBuffer [1, 2])).2 =
      ("hello\n", none) ∧
    (QuickTranscribe (envSystemCommands "hello\n") [1, 2]).2 = ("hello\n", none) ∧
    TrimSpace "hello\n" = "hello" ∧
    (TranscribeAudio (envSystemCommands " \n") (NewAppState.WriteToAudioBuffer [1, 2])).2 =
      (" \n", none) ∧
    TrimSpace " \n" = "" ∧
    Event.lookPath "speech-to-text" ∉
      (TranscribeAudio (envSystemCommands " \n") (NewAppState.WriteToAudioBuffer [1, 2])).1 := by
  decide

/-- C10: when `IsRecording()` is false, `StopRecording` sends nothing on the stop
channel and leaves the whole recorder, shared state included, unchanged. -/
theorem StopRecording_not_recording_noop (r : Recorder)
    (h : r.state.IsRecording = false) :
    r.StopRecording = r ∧ r.StopRecording.stopChan = r.stopChan ∧
    r.StopRecording.state = r.state ∧ r.StopRecording.state.IsRecording = false := by
  simp [Recorder.StopRecording, h]

/-- Witness for C10: an idle recorder holding buffered audio. -/
theorem StopRecording_not_recording_noop_witness :
    (NewRecorder (NewAppState.WriteToAudioBuffer [7, 8])).state.IsRecording = false ∧
    (NewRecorder (NewAppState.WriteToAudioBuffer [7, 8])).StopRecording =
      NewRecorder (NewAppState.WriteToAudioBuffer [7, 8]) :=
  ⟨rfl, (StopRecording_not_recording_noop
    (NewRecorder (NewAppState.WriteToAudioBuffer [7, 8])) rfl).1⟩

/-- C11: when `SaveAsWav` succeeds on `n` bytes of audio with `n + 36 < 2^32`, the
byte stream it writes is a 44-byte header followed by the input unchanged:
`RIFF` at 0, u32 `n + 36` at 4, `WAVE` at 8, `fmt ` at 12, u32 16 at 16, u16 1 at
20 (format), u16 1 at 22 (channels), u32 16000 at 24, u32 32000 at 28, u16 2 at
32, u16 16 at 34, `data` at 36, u32 `n` at 40, all little-endian; for `n = 16000`
the stream has 16044 bytes, file size 16036 and data size 16000. -/
theorem SaveAsWav_layout (env : Env) (audioData : List Nat) (outputFile : String)
    (hn : audioData.length + 36 < 2 ^ 32)
    (hok : (SaveAsWav env audioData outputFile).2 = none) :
    (wavStream env audioData outputFile).length = 44 + audioData.length ∧
    ((wavStream env audioData outputFile).take 44).length = 44 ∧
    (∀ b ∈ (wavStream env audioData outputFile).take 44, b < 256) ∧
    (wavStream env audioData outputFile).drop 44 = audioData ∧
    tagAt (wavStream env audioData outputFile) 0 = asciiBytes "RIFF" ∧
    le32 (wavStream env audioData outputFile) 4 = audioData.length + 36 ∧
    tagAt (wavStream env audioData outputFile) 8 = asciiBytes "WAVE" ∧
    tagAt (wavStream env audioData outputFile) 12 = asciiBytes "fmt " ∧
    le32 (wavStream env audioData outputFile) 16 = 16 ∧
    le16 (wavStream env audioData outputFile) 20 = 1 ∧
    le16 (wavStream env audioData outputFile) 22 = 1 ∧
    le32 (wavStream env audioData outputFile) 24 = 16000 ∧
    le32 (wavStream env audioData outputFile) 28 = 32000 ∧
    le16 (wavStream env audioData outputFile) 32 = 2 ∧
    le16 (wavStream env audioData outputFile) 34 = 16 ∧
    tagAt (wavStream env audioData outputFile) 36 = asciiBytes "data" ∧
    le32 (wavStream env audioData outputFile) 40 = audioData.length ∧
    (audioData.length = 16000 →
      (wavStream env audioData outputFile).length = 16044 ∧
      le32 (wavStream env audioData outputFile) 4 = 16036 ∧
      le32 (wavStream env audioData outputFile) 40 = 16000) := by
  rw [wavStream_ok env audioData outputFile hok]
  obtain ⟨h0, h1, h2, h3, h4, h5, h6, h7, h8, h9, h10, h11, h12, h13⟩ :=
    wavHeader_fields audioData.length hn audioData
  have htake : (wavHeader audioData.length ++ audioData).take 44 = wavHeader audioData.length := by
    rw [List.take_append_of_le_length (by omega), List.take_of_length_le (by omega)]
  have hdrop : (wavHeader audioData.length ++ audioData).drop 44 = audioData := by
    rw [← h0, List.drop_left]
  refine ⟨by rw [List.length_append, h0], by rw [htake, h0], ?_, hdrop, h1, h2, h3, h4, h5, h6,
    h7, h8, h9, h10, h11, h12, h13, ?_⟩
  · rw [htake]
    exact wavHeader_bytes audioData.length
  · intro h16
    rw [List.length_append, h0, h2, h13, h16]
    exact ⟨rfl, rfl, rfl⟩

/-- Witness for C11: 16000 bytes of silence written with every file call
succeeding. -/
theorem SaveAsWav_layout_witness :
    (wavStream envNoProvider silence16000 "/tmp/out/recording.wav").length = 16044 ∧
    le32 (wavStream envNoProvider silence16000 "/tmp/out/recording.wav") 4 = 16036 ∧
    le32 (wavStream envNoProvider silence16000 "/tmp/out/recording.wav") 40 = 16000 :=
  (SaveAsWav_layout envNoProvider silence16000 "/tmp/out/recording.wav"
    (by rw [silence16000, List.length_replicate]; decide) rfl).2.2.2.2.2.2.2.2.2.2.2.2.2.2.2.2.2
    (by rw [silence16000, List.length_replicate])

/-- C12: for every input, with `i` the first index where the field name `"text":`
occurs, `q` the first double quote at or after `i + 7`, and `e` the first double
quote after `q` not immediately preceded by a backslash: `ExtractTextFromJSON`
returns the empty string when there is no such `i`, no such `q` or no such `e`,
and otherwise exactly the characters strictly between `q` and `e`, escapes kept;
the input `{"text":"hello \"world\""}` yields `hello \"world\"`. -/
theorem ExtractTextFromJSON_spec (s : String) :
    ((∀ i, ¬ occursAt s.data textField i) → ExtractTextFromJSON s = "") ∧
    (∀ i, occursAt s.data textField i → (∀ j, j < i → ¬ occursAt s.data textField j) →
      ((∀ j, i + 7 ≤ j → s.data[j]? ≠ some '"') → ExtractTextFromJSON s = "") ∧
      (∀ q, i + 7 ≤ q → s.data[q]? = some '"' →
        (∀ j, i + 7 ≤ j → j < q → s.data[j]? ≠ some '"') →
        ((∀ e, q < e → s.data[e]? = some '"' → s.data[e - 1]? = some '\\') →
          ExtractTextFromJSON s = "") ∧
        (∀ e, q < e → s.data[e]? = some '"' → s.data[e - 1]? ≠ some '\\' →
          (∀ j, q < j → j < e → s.data[j]? = some '"' → s.data[j - 1]? = some '\\') →
          ExtractTextFromJSON s = String.mk ((s.data.drop (q + 1)).take (e - (q + 1)))))) ∧
    ExtractTextFromJSON "\x7b\"text\":\"hello \\\"world\\\"\"\x7d" = "hello \\\"world\\\"" := by
  refine ⟨extract_no_field s, fun i hocc hmin => ⟨extract_no_open s i hocc hmin,
    fun q hiq hq hfirst => ⟨extract_no_close s i q hocc hmin hiq hq hfirst,
      fun e hqe he hesc hefirst => extract_found s i q e hocc hmin hiq hq hfirst hqe he hesc
        hefirst⟩⟩, ?_⟩
  decide

/-- Witness for C12: in `{"text":"hello \"world\""}` the field name is at index 1,
the opening quote at 8 and the closing quote at 24. -/
theorem ExtractTextFromJSON_spec_witness :
    ExtractTextFromJSON "\x7b\"text\":\"hello \\\"world\\\"\"\x7d" =
      String.mk (("\x7b\"text\":\"hello \\\"world\\\"\"\x7d".data.drop 9).take 15) :=
  ((((ExtractTextFromJSON_spec "\x7b\"text\":\"hello \\\"world\\\"\"\x7d").2.1 1 rfl
    (by intro j hj hc; interval_cases j; revert hc; unfold occursAt; decide)).2 8
    (by decide) (by decide) (by intro j h1 h2; omega)).2 24 (by decide) (by decide) (by decide)
    (by intro j h1 h2; interval_cases j <;> decide))

/-- C13: on a well-formed state, for a frame of `k` samples `audioInputCallback`
appends a buffer of exactly `2k` bytes to the audio buffer, the prior content
staying as a prefix; for every `i < k`, byte `2i` plus 256 times byte `2i + 1`
equals sample `i` modulo 2^16 (low byte first); and the data callback, when
registered, is invoked once more with exactly that buffer (not at all when none
is registered). -/
theorem audioInputCallback_encoding (r : Recorder) (samples : List Int) (h : r.state.WF) :
    ∃ buf : List Nat,
      buf.length = 2 * samples.length ∧
      (r.audioInputCallback samples).state.audio = r.state.audio ++ buf ∧
      (∀ i, i < samples.length →
        buf.getD (2 * i) 0 < 256 ∧ buf.getD (2 * i + 1) 0 < 256 ∧
        ((buf.getD (2 * i) 0 : Nat) : Int) + (256 : Int) * ((buf.getD (2 * i + 1) 0 : Nat) : Int)
          = samples.getD i 0 % 65536) ∧
      (r.callback = true →
        (r.audioInputCallback samples).delivered = r.delivered ++ [buf]) ∧
      (r.callback = false → (r.audioInputCallback samples).delivered = r.delivered) ∧
      (r.audioInputCallback samples).state.WF := by
  have hw := WriteToAudioBuffer_spec r.state (frameBytes samples) h
  refine ⟨frameBytes samples, frameBytes_length samples, ?_, ?_, ?_, ?_, ?_⟩
  · unfold Recorder.audioInputCallback
    dsimp only
    split_ifs <;> exact hw.2
  · intro i hi
    obtain ⟨e0, e1⟩ := frameBytes_getD samples i hi
    rw [e0, e1]
    exact ⟨byteOfInt_lt _, byteOfInt_lt _, byteOfInt_pair _⟩
  · intro hc
    simp [Recorder.audioInputCallback, hc]
  · intro hc
    simp [Recorder.audioInputCallback, hc]
  · unfold Recorder.audioInputCallback
    dsimp only
    split_ifs <;> exact hw.1

/-- Witness for C13: the frame `[-2, 258]` delivered to a recorder holding three
bytes, with a data callback registered. -/
theorem audioInputCallback_encoding_witness :
    (listeningRecorder.audioInputCallback [-2, 258]).state.audio = [1, 2, 3, 254, 255, 2, 1] ∧
    (listeningRecorder.audioInputCallback [-2, 258]).delivered = [[254, 255, 2, 1]] ∧
    ∃ buf : List Nat,
      buf.length = 2 * [(-2 : Int), 258].length ∧
      (listeningRecorder.audioInputCallback [-2, 258]).state.audio =
        listeningRecorder.state.audio ++ buf ∧
      (∀ i, i < [(-2 : Int), 258].length →
        buf.getD (2 * i) 0 < 256 ∧ buf.getD (2 * i + 1) 0 < 256 ∧
        ((buf.getD (2 * i) 0 : Nat) : Int) + (256 : Int) * ((buf.getD (2 * i + 1) 0 : Nat) : Int)
          = [(-2 : Int), 258].getD i 0 % 65536) ∧
      (listeningRecorder.callback = true →
        (listeningRecorder.audioInputCallback [-2, 258]).delivered =
          listeningRecorder.delivered ++ [buf]) ∧
      (listeningRecorder.callback = false →
        (listeningRecorder.audioInputCallback [-2, 258]).delivered =
          listeningRecorder.delivered) ∧
      (listeningRecorder.audioInputCallback [-2, 258]).state.WF :=
  ⟨by decide, by decide, audioInputCallback_encoding listeningRecorder [-2, 258]
    (WriteToAudioBuffer_spec NewAppState [1, 2, 3] NewAppState_WF).1⟩

end Autospeech
